import Mathlib

/-!
Verification development for the LAMMPS bond-style regression-test harness
(`src/unittest/force-styles/bond-style.cpp`).

The development shallowly embeds the fixture reader state machine
(`YamlReader::consume_event` / `parse_file`), the field decoders of
`TestConfigReader`, the `ErrorStats` accumulator, the relative-error
computation of `EXPECT_FP_LE_WITH_EPS`, the tolerance schedules of the
test variants, and the fixture writer (`YamlWriter` / `generate`).

Machine doubles are modelled as exact rationals; the uninitialized stack
locals of the decoders are modelled as explicit "garbage" parameters, and
the unchecked `std::vector` index writes are modelled with a checked write
returning `Option`.
-/

namespace BondStyle

/-! ## Character and line utilities -/

/-- Characters of the `" \t"` set used by `find_first_of(" \t")`. -/
def isWsST (c : Char) : Bool := c = ' ' || c = '\t'

/-- Whitespace as recognized by `sscanf`/`strtod` conversions. -/
def isScanWs (c : Char) : Bool :=
  c = ' ' || c = '\t' || c = '\n' || c = '\r' || c = '\x0b' || c = '\x0c'

/-- Decimal digit test, `isdigit`. -/
def isDigitC (c : Char) : Bool := '0' ≤ c && c ≤ '9'

/-- Helper for `getlines`: accumulate the current line (reversed) while
splitting the remaining characters at newline boundaries the way
`std::getline(stream, line, '\n')` does. -/
def getlinesAux (cur : List Char) : List Char → List (List Char)
  | [] => [cur.reverse]
  | c :: r =>
    if c = '\n' then
      cur.reverse :: (match r with
        | [] => []
        | _ :: _ => getlinesAux [] r)
    else
      getlinesAux (c :: cur) r

/-- The sequence of lines produced by repeatedly calling
`std::getline(stream, line, '\n')` on the given characters: a trailing
newline does not produce a final empty line, and an empty input produces
no lines. -/
def getlines : List Char → List (List Char)
  | [] => []
  | c :: r => getlinesAux [] (c :: r)

/-- First index (relative) whose character satisfies `p`. -/
def findIdxAux (p : Char → Bool) : List Char → Option Nat
  | [] => none
  | c :: r => if p c then some 0 else (findIdxAux p r).map (· + 1)

/-- First index at or after `start` whose character satisfies `p`
(`std::string::find_first_of` shape, `none` for `npos`). -/
def findIdxFrom (p : Char → Bool) (start : Nat) (l : List Char) : Option Nat :=
  (findIdxAux p (l.drop start)).map (· + start)

/-! ## Numeric text scanning (`atoi`, `atof`, `sscanf` conversions) -/

/-- Numeric value of a digit character. -/
def charVal (c : Char) : Nat := c.toNat - 48

/-- Value of a digit-character string, most significant first. -/
def natOfDigits (l : List Char) : Nat := l.foldl (fun a c => a * 10 + charVal c) 0

/-- Scan a nonempty run of decimal digits; `none` when the input does not
start with a digit. -/
def scanUInt (s : List Char) : Option (Nat × List Char) :=
  let ds := s.takeWhile isDigitC
  if ds.isEmpty then none else some (natOfDigits ds, s.dropWhile isDigitC)

/-- Consume an optional sign, returning whether it was `'-'`. -/
def scanSign (s : List Char) : Bool × List Char :=
  match s with
  | [] => (false, [])
  | c :: r => if c = '-' then (true, r) else if c = '+' then (false, r) else (false, s)

/-- The `%d` conversion of `sscanf`: skip whitespace, optional sign,
then at least one digit; `none` models a matching failure. -/
def scanInt (s : List Char) : Option (Int × List Char) :=
  let s1 := s.dropWhile isScanWs
  let (neg, s2) := scanSign s1
  match scanUInt s2 with
  | none => none
  | some (n, r) => some ((if neg then -(n : Int) else (n : Int)), r)

/-- Scan an optional exponent part `e[±]ddd`; when absent or malformed
nothing is consumed and the exponent is `0`. -/
def scanExp (s : List Char) : Int × List Char :=
  match s with
  | c :: r =>
    if c = 'e' || c = 'E' then
      let (neg, r2) := scanSign r
      match scanUInt r2 with
      | some (n, r3) => ((if neg then -(n : Int) else (n : Int)), r3)
      | none => (0, s)
    else (0, s)
  | [] => (0, s)

/-- Integer power of ten as a rational. -/
def qpow10 (e : Int) : ℚ :=
  if 0 ≤ e then ((10 : ℚ) ^ e.toNat) else ((10 : ℚ) ^ (-e).toNat)⁻¹

/-- Assemble a scanned decimal number from its parts. -/
def floatVal (neg : Bool) (ip fp : List Char) (ex : Int) : ℚ :=
  let mag := ((natOfDigits ip : ℚ) + (natOfDigits fp : ℚ) / (10 : ℚ) ^ fp.length) * qpow10 ex
  if neg then -mag else mag

/-- The `%lg` conversion of `sscanf` (and the core of `strtod`): skip
whitespace, optional sign, digits with an optional fractional part and an
optional exponent; at least one mantissa digit is required. -/
def scanFloat (s : List Char) : Option (ℚ × List Char) :=
  let s1 := s.dropWhile isScanWs
  let (neg, s2) := scanSign s1
  let ip := s2.takeWhile isDigitC
  let s3 := s2.dropWhile isDigitC
  match s3 with
  | '.' :: s4 =>
    let fp := s4.takeWhile isDigitC
    let s5 := s4.dropWhile isDigitC
    if ip.isEmpty && fp.isEmpty then none
    else
      let (ex, s6) := scanExp s5
      some (floatVal neg ip fp ex, s6)
  | _ =>
    if ip.isEmpty then none
    else
      let (ex, s4) := scanExp s3
      some (floatVal neg ip [] ex, s4)

/-- `atoi`: parse a leading integer, `0` when none. -/
def atoiQ (s : String) : Int :=
  match scanInt s.toList with
  | some (n, _) => n
  | none => 0

/-- `atof`: parse a leading floating-point number, `0` when none. -/
def atofQ (s : String) : ℚ :=
  match scanFloat s.toList with
  | some (q, _) => q
  | none => 0

/-! ## Data model (`coord_t`, `stress_t`, `TestConfig`) -/

/-- `coord_t`: a 3-vector of doubles, modelled over the rationals. -/
structure Coord where
  x : ℚ
  y : ℚ
  z : ℚ
deriving DecidableEq

/-- The zero vector produced by value-initialization in `vector::resize`. -/
def zeroCoord : Coord := ⟨0, 0, 0⟩

/-- `stress_t`: the 6 virial components. -/
structure Stress where
  xx : ℚ
  yy : ℚ
  zz : ℚ
  xy : ℚ
  xz : ℚ
  yz : ℚ
deriving DecidableEq

/-- The zero stress tensor. -/
def zeroStress : Stress := ⟨0, 0, 0, 0, 0, 0⟩

/-- `TestConfig`: the typed fixture configuration object. -/
structure TestConfig where
  lammps_version : String
  date_generated : String
  epsilon : ℚ
  prerequisites : List (String × String)
  pre_commands : List String
  post_commands : List String
  input_file : String
  bond_style : String
  bond_coeff : List String
  natoms : Int
  init_energy : ℚ
  run_energy : ℚ
  init_stress : Stress
  run_stress : Stress
  init_forces : List Coord
  run_forces : List Coord
deriving DecidableEq

/-- The state of a `TestConfig` right after its constructor ran
(`TestConfig::TestConfig`). -/
def defaultConfig : TestConfig where
  lammps_version := ""
  date_generated := ""
  epsilon := 1 / 10 ^ 14
  prerequisites := []
  pre_commands := []
  post_commands := []
  input_file := ""
  bond_style := "zero"
  bond_coeff := []
  natoms := 0
  init_energy := 0
  run_energy := 0
  init_stress := zeroStress
  run_stress := zeroStress
  init_forces := []
  run_forces := []

/-! ## ErrorStats -/

/-- The `ErrorStats` accumulator. -/
structure ErrorStats where
  sum : ℚ
  sumsq : ℚ
  maxerr : ℚ
  num : Int
  maxidx : Int
deriving DecidableEq

/-- `ErrorStats::reset`. -/
def ErrorStats.reset : ErrorStats := ⟨0, 0, 0, 0, -1⟩

/-- `ErrorStats::add`: increment the count, track the strict running
maximum and its 1-based index, accumulate sum and sum of squares. -/
def ErrorStats.add (s : ErrorStats) (val : ℚ) : ErrorStats :=
  let num := s.num + 1
  let m := if s.maxerr < val then (num, val) else (s.maxidx, s.maxerr)
  { sum := s.sum + val
    sumsq := s.sumsq + val * val
    maxerr := m.2
    num := num
    maxidx := m.1 }

/-- `ErrorStats::max`. -/
def ErrorStats.maxv (s : ErrorStats) : ℚ := s.maxerr

/-- `ErrorStats::idx`. -/
def ErrorStats.idx (s : ErrorStats) : Int := s.maxidx

/-- `ErrorStats::avg`. -/
def ErrorStats.avg (s : ErrorStats) : ℚ := if 0 < s.num then s.sum / s.num else 0

/-- Feed a list of samples to an accumulator in order. -/
def ErrorStats.addList (s : ErrorStats) (l : List ℚ) : ErrorStats :=
  l.foldl ErrorStats.add s

/-! ## Relative error (`EXPECT_FP_LE_WITH_EPS`) -/

/-- The relative error computed by the `EXPECT_FP_LE_WITH_EPS` macro:
`diff = fabs(val1-val2)`, `div = min(fabs(val1), fabs(val2))`,
`err = (div == 0.0) ? diff : diff/div`. -/
def relativeError (val1 val2 : ℚ) : ℚ :=
  let diff := |val1 - val2|
  let dv := min |val1| |val2|
  if dv = 0 then diff else diff / dv

/-! ## Object store

The reader holds a reference `config` to the `TestConfig` it was
constructed with, while several decoders also name the global
`test_config` directly.  We model the heap as two cells indexed by
`Bool`: the global `test_config` lives at `true`, and the reader is
bound to the cell at index `i` — `i = true` is the program's actual
configuration (`TestConfigReader(test_config)` in `main`), aliasing the
two names to the same object. -/

/-- Two-cell heap: `st true` is the global `test_config`, `st false` a
distinct locally constructed `TestConfig`. -/
def Store : Type := Bool → TestConfig

/-- Overwrite the cell at index `b`. -/
def setCell (st : Store) (b : Bool) (v : TestConfig) : Store :=
  fun b2 => if b2 = b then v else st b2

/-- Apply an update to the reader's bound cell. -/
def updBound (i : Bool) (st : Store) (f : TestConfig → TestConfig) : Store :=
  setCell st i (f (st i))

/-! ## Field decoders (`TestConfigReader`) -/

/-- `TestConfigReader::prerequisites` line splitting, with the exact
`substr`/`find_first_of` index arithmetic of the source (including
passing the absolute position of the next whitespace as the *length*
argument of the second `substr`). -/
def parsePrereqLine (line : List Char) : Option (String × String) :=
  let i := findIdxFrom isWsST 0 line
  let key := match i with
    | none => line
    | some k => line.take k
  let j := match i with
    | none => none
    | some k => findIdxFrom (fun c => !isWsST c) k line
  match j with
  | none => none
  | some jj =>
    let value := match findIdxFrom isWsST jj line with
      | none => line.drop jj
      | some m => (line.drop jj).take m
    some (String.mk key, String.mk value)

/-- `TestConfigReader::prerequisites`: clear the bound object's list,
then push each parsed `(kind, style)` pair onto the *global*
`test_config.prerequisites`, skipping lines without a second field. -/
def prereqDecode (i : Bool) (text : List Char) (st : Store) : Store :=
  let st1 := updBound i st (fun c => { c with prerequisites := [] })
  (getlines text).foldl
    (fun s line =>
      match parsePrereqLine line with
      | none => s
      | some kv =>
        setCell s true { s true with prerequisites := (s true).prerequisites ++ [kv] })
    st1

/-- Common shape of `pre_commands`, `post_commands` and `bond_coeff`:
clear the bound object's list, then push every line onto the *global*
`test_config`'s list.  `getL`/`setL` select the field. -/
def pushLinesDecode (getL : TestConfig → List String)
    (setL : TestConfig → List String → TestConfig)
    (i : Bool) (text : List Char) (st : Store) : Store :=
  let st1 := updBound i st (fun c => setL c [])
  (getlines text).foldl
    (fun s line => setCell s true (setL (s true) (getL (s true) ++ [String.mk line])))
    st1

/-- Sequentially scan six `%lg` conversions into an *uninitialized*
`stress_t` local, keeping the garbage values `g` for conversions that
fail (`TestConfigReader::init_stress` / `run_stress`). -/
def scanStress (g : Stress) (s : List Char) : Stress :=
  match scanFloat s with
  | none => g
  | some (a, r1) =>
    match scanFloat r1 with
    | none => { g with xx := a }
    | some (b, r2) =>
      match scanFloat r2 with
      | none => { g with xx := a, yy := b }
      | some (c, r3) =>
        match scanFloat r3 with
        | none => { g with xx := a, yy := b, zz := c }
        | some (d, r4) =>
          match scanFloat r4 with
          | none => { g with xx := a, yy := b, zz := c, xy := d }
          | some (e, r5) =>
            match scanFloat r5 with
            | none => { xx := a, yy := b, zz := c, xy := d, xz := e, yz := g.yz }
            | some (f, _) => { xx := a, yy := b, zz := c, xy := d, xz := e, yz := f }

/-- The three `%lg` conversions of a force row against an
*uninitialized* `coord_t` local `g`; conversions that fail leave the
prior (garbage) values. -/
def scanXYZ (g : Coord) (r1 : List Char) : Coord :=
  match scanFloat r1 with
  | none => g
  | some (a, r2) =>
    match scanFloat r2 with
    | none => { g with x := a }
    | some (b, r3) =>
      match scanFloat r3 with
      | none => { x := a, y := b, z := g.z }
      | some (c, _) => { x := a, y := b, z := c }

/-- One force row: `sscanf(line, "%d %lg %lg %lg", &tag, &x, &y, &z)`
against an `int tag` initialized to `t0` and an *uninitialized*
`coord_t` local `g`. -/
def scanRow (t0 : Int) (g : Coord) (line : List Char) : Int × Coord :=
  match scanInt line with
  | none => (t0, g)
  | some (t, r1) => (t, scanXYZ g r1)

/-- Checked model of the unchecked `config.init_forces[tag] = xyz`
write: `none` when `tag` is outside the vector's bounds. -/
def setAtChecked (arr : List Coord) (t : Int) (v : Coord) : Option (List Coord) :=
  if 0 ≤ t ∧ t.toNat < arr.length then some (arr.set t.toNat v) else none

/-- Write all rows of a force block into the array.  `tinit k` and `g k`
are the initial (possibly garbage) values of row `k`'s locals. -/
def writeRows (tinit : Nat → Int) (g : Nat → Coord) :
    Nat → List (List Char) → List Coord → Option (List Coord)
  | _, [], arr => some arr
  | k, line :: rest, arr =>
    match setAtChecked arr (scanRow (tinit k) (g k) line).1 (scanRow (tinit k) (g k) line).2 with
    | none => none
    | some arr2 => writeRows tinit g (k + 1) rest arr2

/-- `TestConfigReader::init_forces`: clear, resize to `natoms+1` zeroed
entries, then store each row at the index given by its scanned tag.
The row-local `int tag` is initialized to `0` in this decoder. -/
def initForcesDecode (g : Nat → Coord) (text : List Char) (c : TestConfig) :
    Option TestConfig :=
  (writeRows (fun _ => 0) g 0 (getlines text)
      (List.replicate (c.natoms + 1).toNat zeroCoord)).map
    (fun a => { c with init_forces := a })

/-- `TestConfigReader::run_forces`: as `init_forces`, except the
row-local `int tag` is *uninitialized* (garbage `tg k`). -/
def runForcesDecode (tg : Nat → Int) (g : Nat → Coord) (text : List Char)
    (c : TestConfig) : Option TestConfig :=
  (writeRows tg g 0 (getlines text)
      (List.replicate (c.natoms + 1).toNat zeroCoord)).map
    (fun a => { c with run_forces := a })

/-- The uninitialized stack locals of the decoders, made explicit. -/
structure Garbage where
  initF : Nat → Coord
  runF : Nat → Coord
  runTag : Nat → Int
  initS : Stress
  runS : Stress

/-- All-zero garbage valuation (one possible execution). -/
def zeroGarbage : Garbage := ⟨fun _ => zeroCoord, fun _ => zeroCoord, fun _ => 0,
  zeroStress, zeroStress⟩

/-- `YamlReader::consume_key_value` together with the consumer registry
built in the `TestConfigReader` constructor: dispatch an accepted
key/value pair to its field decoder.  The `Bool` result is `true` for a
known key (`false` triggers the "Ignoring unknown key/value pair"
diagnostic); `none` marks an out-of-bounds force write. -/
def dispatch (i : Bool) (G : Garbage) (key value : String) (st : Store) :
    Option (Bool × Store) :=
  match key with
  | "lammps_version" => some (true, updBound i st (fun c => { c with lammps_version := value }))
  | "date_generated" => some (true, updBound i st (fun c => { c with date_generated := value }))
  | "epsilon" => some (true, updBound i st (fun c => { c with epsilon := atofQ value }))
  | "prerequisites" => some (true, prereqDecode i value.toList st)
  | "pre_commands" =>
    some (true, pushLinesDecode TestConfig.pre_commands
      (fun c l => { c with pre_commands := l }) i value.toList st)
  | "post_commands" =>
    some (true, pushLinesDecode TestConfig.post_commands
      (fun c l => { c with post_commands := l }) i value.toList st)
  | "input_file" => some (true, updBound i st (fun c => { c with input_file := value }))
  | "bond_style" => some (true, updBound i st (fun c => { c with bond_style := value }))
  | "bond_coeff" =>
    some (true, pushLinesDecode TestConfig.bond_coeff
      (fun c l => { c with bond_coeff := l }) i value.toList st)
  | "natoms" => some (true, updBound i st (fun c => { c with natoms := atoiQ value }))
  | "init_energy" => some (true, updBound i st (fun c => { c with init_energy := atofQ value }))
  | "run_energy" => some (true, updBound i st (fun c => { c with run_energy := atofQ value }))
  | "init_stress" =>
    some (true, updBound i st (fun c => { c with init_stress := scanStress G.initS value.toList }))
  | "run_stress" =>
    some (true, updBound i st (fun c => { c with run_stress := scanStress G.runS value.toList }))
  | "init_forces" =>
    (initForcesDecode G.initF value.toList (st i)).map (fun c => (true, setCell st i c))
  | "run_forces" =>
    (runForcesDecode G.runTag G.runF value.toList (st i)).map (fun c => (true, setCell st i c))
  | _ => some (false, st)

/-! ## Reader state machine (`YamlReader::consume_event` / `parse_file`) -/

/-- The libyaml event kinds consumed by the reader. -/
inductive YEvent where
  | streamStart
  | streamEnd
  | docStart
  | docEnd
  | mapStart
  | mapEnd
  | seqStart
  | seqEnd
  | scalar (s : String)
deriving DecidableEq

/-- The scalar text of an event (`event.data.scalar.value`; only read on
scalar events). -/
def YEvent.text : YEvent → String
  | .scalar s => s
  | _ => ""

/-- The `StateValue` enumeration of `YamlReader`. -/
inductive PState where
  | start
  | acceptKey
  | acceptValue
  | stop
  | error
deriving DecidableEq

/-- `YamlReader::consume_event`: one transition of the state machine.
Returns the new state, the (possibly updated) pending `key` member and
the `accepted` flag.  The C function's boolean result is
`state != ERROR`, recovered by the caller from the returned state. -/
def consumeEvent (ps : PState) (key : String) (e : YEvent) :
    PState × String × Bool :=
  match ps with
  | .start =>
    match e with
    | .mapStart => (.acceptKey, key, false)
    | .scalar _ => (.error, key, false)
    | .seqStart => (.error, key, false)
    | .streamEnd => (.stop, key, false)
    | .streamStart => (.start, key, false)
    | .docStart => (.start, key, false)
    | .docEnd => (.start, key, false)
    | _ => (.error, key, false)
  | .acceptKey =>
    match e with
    | .scalar s => (.acceptValue, s, false)
    | .mapEnd => (.stop, key, false)
    | _ => (.error, key, false)
  | .acceptValue =>
    match e with
    | .scalar _ => (.acceptKey, key, true)
    | _ => (.error, key, false)
  | .error => (.error, key, false)
  | .stop => (.stop, key, false)

/-- The `do { ... } while (state != STOP)` loop body of
`YamlReader::parse_file`, driven by the event list the underlying
libyaml parser would deliver (an exhausted list models
`yaml_parser_parse` failing, which the loop turns into `STOP`).  After
the loop the function unconditionally returns `0`; the sole nonzero
return (`1`) happens earlier, when the file cannot be opened.  `none`
marks an out-of-bounds force write inside a dispatched decoder. -/
def parseLoop (i : Bool) (G : Garbage) :
    PState → String → Store → List YEvent → Option (Int × Store)
  | _, _, st, [] => some (0, st)
  | ps, key, st, e :: rest =>
    let r := consumeEvent ps key e
    let ps2 := if r.1 = PState.error then PState.stop else r.1
    let step : Option Store :=
      if r.2.2 then (dispatch i G r.2.1 e.text st).map Prod.snd else some st
    match step with
    | none => none
    | some st2 =>
      if ps2 = PState.stop then some (0, st2) else parseLoop i G ps2 r.2.1 st2 rest

/-- `parse_file` on an openable file, in the program's actual
configuration where the reader is bound to the global `test_config`
(aliased cells): returns the function's `int` result and the final
configuration object. -/
def parseAliased (G : Garbage) (events : List YEvent) (c : TestConfig) :
    Option (Int × TestConfig) :=
  (parseLoop true G .start "" (fun _ => c) events).map (fun r => (r.1, r.2 true))

/-- `main`'s handling of the `parse_file` result: the process exits with
code `2` exactly when `parse_file` returned nonzero. -/
def exitsWithTwo (parseResult : Int) : Prop := parseResult ≠ 0

instance : DecidablePred exitsWithTwo := fun r => by
  unfold exitsWithTwo; infer_instance

/-! ## Decimal rendering (`%d` / `%ld` and the writer's row formats) -/

/-- Digit character of a value `0..9`. -/
def digitChar : Nat → Char
  | 0 => '0' | 1 => '1' | 2 => '2' | 3 => '3' | 4 => '4'
  | 5 => '5' | 6 => '6' | 7 => '7' | 8 => '8' | _ => '9'

/-- Decimal digit values of a natural number, most significant first. -/
def natDigits (n : Nat) : List Nat :=
  if n < 10 then [n] else natDigits (n / 10) ++ [n % 10]
termination_by n
decreasing_by
  exact Nat.div_lt_self (by omega) (by omega)

/-- Decimal digit characters of a natural number. -/
def natChars (n : Nat) : List Char := (natDigits n).map digitChar

/-- `%d` rendering of an `int`. -/
def intChars (t : Int) : List Char :=
  if t < 0 then '-' :: natChars (-t).toNat else natChars t.toNat

/-- `%d` rendering as a string. -/
def intToString (t : Int) : String := String.mk (intChars t)

/-- Right-justify in a field of width 3 (`"% 3d"`; the space flag adds
padding that the reader's whitespace skipping discards anyway). -/
def pad3 (l : List Char) : List Char :=
  List.replicate (3 - l.length) ' ' ++ l

/-! ## Fixture writer (`YamlWriter` / `generate`) -/

/-- Join lines with a trailing `'\n'` after each, as the `generate`
block-building loops do (`block += line + "\n"`). -/
def joinNl (lines : List (List Char)) : List Char :=
  lines.foldr (fun l acc => l ++ '\n' :: acc) []

/-- The `prerequisites` block written by `generate`. -/
def prereqBlock (ps : List (String × String)) : String :=
  String.mk (joinNl (ps.map (fun p => p.1.toList ++ ' ' :: p.2.toList)))

/-- A command block (`pre_commands`, `post_commands`, `bond_coeff`). -/
def cmdBlock (ls : List String) : String :=
  String.mk (joinNl (ls.map String.toList))

/-- The `date_generated` value: `ctime` output truncated by
`block.substr(0, block.find("\n") - 1)`, with `size_t` wrap-around when
the newline is absent or first. -/
def dateCut (s : String) : String :=
  match findIdxFrom (fun c => c = '\n') 0 s.toList with
  | none => s
  | some k => if k = 0 then s else String.mk (s.toList.take (k - 1))

/-- A stress block: six values formatted with `"% 23.16e"` separated by
spaces (the floating-point renderer `fmtE` is a parameter — the C
binary-to-decimal conversion is external to the embedding). -/
def stressBlock (fmtE : ℚ → String) (s : Stress) : String :=
  String.mk ((fmtE s.xx).toList ++ ' ' :: (fmtE s.yy).toList ++ ' ' :: (fmtE s.zz).toList ++
    ' ' :: (fmtE s.xy).toList ++ ' ' :: (fmtE s.xz).toList ++ ' ' :: (fmtE s.yz).toList)

/-- One force row `"% 3d % 23.16e % 23.16e % 23.16e\n"` (without the
final newline, which `joinNl` adds). -/
def forceRow (fmtE : ℚ → String) (t : Int) (c : Coord) : List Char :=
  pad3 (intChars t) ++
    ((' ' :: (fmtE c.x).toList) ++ ((' ' :: (fmtE c.y).toList) ++ (' ' :: (fmtE c.z).toList)))

/-- A force block: one row per local atom `i = 0 .. natoms-1`, each
carrying the atom's persistent tag. -/
def forcesBlock (fmtE : ℚ → String) (natoms : Int) (tags : Nat → Int)
    (f : Nat → Coord) : String :=
  String.mk (joinNl ((List.range natoms.toNat).map (fun k => forceRow fmtE (tags k) (f k))))

/-- The live simulation quantities `generate` reads from the engine
(excluded collaborator): version string, raw `ctime` text, atom count,
per-phase energies, virials, tags and forces. -/
structure LiveData where
  version : String
  dateRaw : String
  natoms : Int
  initEnergy : ℚ
  runEnergy : ℚ
  initStress : Stress
  runStress : Stress
  tags : Nat → Int
  initF : Nat → Coord
  runTags : Nat → Int
  runF : Nat → Coord

/-- The key/value pairs `generate` emits, in its fixed order.  `fmtG`
models `"%.15g"` (epsilon and energies) and `fmtE` models `"% 23.16e"`
(stress and force components); both are parameters because C's
double-to-decimal conversion is external to the embedding.  Integer
rendering (`%d`) is exact and modelled directly. -/
def generatePairs (fmtG fmtE : ℚ → String) (cfg : TestConfig) (live : LiveData) :
    List (String × String) :=
  [ ("lammps_version", live.version),
    ("date_generated", dateCut live.dateRaw),
    ("epsilon", fmtG cfg.epsilon),
    ("prerequisites", prereqBlock cfg.prerequisites),
    ("pre_commands", cmdBlock cfg.pre_commands),
    ("post_commands", cmdBlock cfg.post_commands),
    ("input_file", cfg.input_file),
    ("bond_style", cfg.bond_style),
    ("bond_coeff", cmdBlock cfg.bond_coeff),
    ("natoms", intToString live.natoms),
    ("init_energy", fmtG live.initEnergy),
    ("init_stress", stressBlock fmtE live.initStress),
    ("init_forces", forcesBlock fmtE live.natoms live.tags live.initF),
    ("run_energy", fmtG live.runEnergy),
    ("run_stress", stressBlock fmtE live.runStress),
    ("run_forces", forcesBlock fmtE live.natoms live.runTags live.runF) ]

/-- Scalar events of a key/value pair sequence. -/
def pairEvents (ps : List (String × String)) : List YEvent :=
  ps.flatMap (fun p => [.scalar p.1, .scalar p.2])

/-- The full event stream a `YamlWriter` lifetime produces: stream/doc/
mapping framing around the emitted pairs (constructor and destructor of
`YamlWriter`, with `generate` in between). -/
def writerEvents (ps : List (String × String)) : List YEvent :=
  .streamStart :: .docStart :: .mapStart ::
    (pairEvents ps ++ [.mapEnd, .docEnd, .streamEnd])

/-! ## Tolerance schedules of the test variants -/

/-- Comparison phase: before (`init`) or after (`run`) the short MD run. -/
inductive CmpPhase where
  | initPhase
  | runPhase
deriving DecidableEq

/-- What a comparison checks: a per-atom force component, a stress
component, the bond energy against the fixture, or the bond energy
against the engine's own reduction (`c_sum`). -/
inductive CmpField where
  | force
  | stress
  | energy
  | energyCross
deriving DecidableEq

/-- The ordered `(phase, field) ↦ tolerance` schedule of
`TEST(BondStyle, plain)`: init forces, init stress, init energy, then
after `run_lammps` the run forces, run stress and the two energy
checks, each with the epsilon expression the source passes to
`EXPECT_FP_LE_WITH_EPS`. -/
def plainSchedule (eps : ℚ) (nlocal : Nat) : List ((CmpPhase × CmpField) × ℚ) :=
  ((List.range nlocal).flatMap (fun _ =>
      [((.initPhase, .force), eps), ((.initPhase, .force), eps), ((.initPhase, .force), eps)])) ++
  List.replicate 6 ((CmpPhase.initPhase, CmpField.stress), eps) ++
  [((.initPhase, .energy), eps)] ++
  ((List.range nlocal).flatMap (fun _ =>
      [((.runPhase, .force), 10 * eps), ((.runPhase, .force), 10 * eps),
        ((.runPhase, .force), 10 * eps)])) ++
  List.replicate 6 ((CmpPhase.runPhase, CmpField.stress), eps) ++
  [((.runPhase, .energy), eps), ((.runPhase, .energyCross), eps)]

/-- Does a post command activate the numerically sensitive tabulation
mode (`TEST(BondStyle, intel)`): contains `"bond_modify table"` but not
`"bond_modify table 0"`. -/
def intelTableMatch (cmd : String) : Bool :=
  decide (List.IsInfix "bond_modify table".toList cmd.toList) &&
    !decide (List.IsInfix "bond_modify table 0".toList cmd.toList)

/-- The tolerance computed at the top of `TEST(BondStyle, intel)`:
start from `5 * epsilon`, then multiply by `1000000` once for *each*
matching post command. -/
def intelEpsilon (eps : ℚ) (cmds : List String) : ℚ :=
  cmds.foldl (fun e c => if intelTableMatch c then e * 1000000 else e) (5 * eps)

/-! ## Auxiliary predicates and fold form of the accepted-pair loop -/

/-- The list does not start with a decimal digit (so a digit run ends
exactly at its boundary). -/
def noDigitStart (r : List Char) : Prop := ∀ c r2, r = c :: r2 → isDigitC c = false

/-- The string contains no newline (so it survives a round trip through
a newline-joined block). -/
def noNl (s : String) : Prop := '\n' ∉ s.toList

/-- A prerequisite pair survives the writer's `"kind style"` line
format: the kind is free of spaces, tabs and newlines, and the style
name is nonempty and free of spaces, tabs and newlines. -/
def prereqClean (p : String × String) : Prop :=
  (∀ c ∈ p.1.toList, isWsST c = false ∧ c ≠ '\n') ∧
  p.2.toList ≠ [] ∧ (∀ c ∈ p.2.toList, isWsST c = false ∧ c ≠ '\n')

instance : DecidablePred noNl := fun s => by
  unfold noNl; infer_instance

instance (p : String × String) : Decidable (prereqClean p) := by
  unfold prereqClean; infer_instance

/-- Invariant of the `ErrorStats` accumulator relative to the samples
`seen` so far: the count matches, `maxerr` is a nonnegative upper bound
of the samples, and either some sample was positive — then `maxidx` is
the 1-based index of the first sample equal to `maxerr` — or all
samples were nonpositive and `maxerr`/`maxidx` still hold their reset
values `0`/`-1`. -/
def statsSeenInv (seen : List ℚ) (s : ErrorStats) : Prop :=
  s.num = (seen.length : Int) ∧
  0 ≤ s.maxerr ∧
  (∀ v ∈ seen, v ≤ s.maxerr) ∧
  ((∃ v ∈ seen, 0 < v) →
    1 ≤ s.maxidx ∧ s.maxidx ≤ (seen.length : Int) ∧
    seen[s.maxidx.toNat - 1]? = some s.maxerr ∧
    (∀ m w, m + 1 < s.maxidx.toNat → seen[m]? = some w → w < s.maxerr)) ∧
  ((∀ v ∈ seen, v ≤ 0) → s.maxerr = 0 ∧ s.maxidx = -1)

/-- Processing a sequence of accepted key/value pairs: the composition
of `consume_key_value` dispatches the parse loop performs. -/
def foldDispatch (i : Bool) (G : Garbage) : List (String × String) → Store → Option Store
  | [], st => some st
  | p :: rest, st =>
    match dispatch i G p.1 p.2 st with
    | none => none
    | some r => foldDispatch i G rest r.2

/-! ## Concrete instances used by counterexamples and witnesses -/

/-- Event stream of a document that is a bare scalar (no top-level
mapping): `stream-start, doc-start, scalar, doc-end, stream-end`. -/
def bareScalarEvents : List YEvent :=
  [.streamStart, .docStart, .scalar "fix", .docEnd, .streamEnd]

/-- The `init_forces` block of the spec's worked example. -/
def c5Block : String := "1 1.0 2.0 3.0\n2 4.0 5.0 6.0\n3 7.0 8.0 9.0\n"

/-- Fixture events: `natoms: 3` followed by the `init_forces` block. -/
def c5Events : List YEvent := writerEvents [("natoms", "3"), ("init_forces", c5Block)]

/-- The force array the worked example should produce. -/
def c5Forces : List Coord := [⟨0, 0, 0⟩, ⟨1, 2, 3⟩, ⟨4, 5, 6⟩, ⟨7, 8, 9⟩]

/-- A heap whose reader-bound cell (`false`) is a local `TestConfig`
distinct from the global `test_config` (`true`), both with
pre-existing list contents. -/
def c7Start : Store := fun b =>
  if b then
    { defaultConfig with prerequisites := [("pair", "lj")], pre_commands := ["log none"] }
  else
    { defaultConfig with prerequisites := [("old", "one")], pre_commands := ["old cmd"] }

/-- A populated configuration for the round-trip scenario. -/
def rtConfig : TestConfig :=
  { defaultConfig with
      date_generated := "orig"
      pre_commands := ["units real"]
      prerequisites := [("bond", "harmonic")]
      bond_coeff := ["1 2.0 1.1"]
      input_file := "in.fourmol"
      bond_style := "harmonic" }

/-- Live engine output for the round-trip counterexample (no atoms, so
the force blocks are empty). -/
def rtLive : LiveData where
  version := "V2020"
  dateRaw := "Mon Jan 1 2024\n"
  natoms := 0
  initEnergy := 1
  runEnergy := 2
  initStress := zeroStress
  runStress := zeroStress
  tags := fun _ => 1
  initF := fun _ => zeroCoord
  runTags := fun _ => 1
  runF := fun _ => zeroCoord

/-- Live engine output with one atom (tag 1), for the round-trip
witness. -/
def rtLive1 : LiveData where
  version := "V2020"
  dateRaw := "Mon Jan 1 2024\n"
  natoms := 1
  initEnergy := 1
  runEnergy := 2
  initStress := zeroStress
  runStress := zeroStress
  tags := fun _ => 1
  initF := fun _ => ⟨1, 2, 3⟩
  runTags := fun _ => 1
  runF := fun _ => ⟨4, 5, 6⟩

/-- A constant stand-in for the external floating-point formatter. -/
def fmtConst (s : String) : ℚ → String := fun _ => s

/-! # Theorems -/

/-! ## Helper lemmas: line splitting -/

theorem getlinesAux_append (l : List Char) (r cur : List Char) (hl : '\n' ∉ l) :
    getlinesAux cur (l ++ '\n' :: r) =
      (cur.reverse ++ l) :: (match r with | [] => [] | _ :: _ => getlinesAux [] r) := by
  induction l generalizing cur with
  | nil => simp [getlinesAux]
  | cons c l2 ih =>
    have hc : c ≠ '\n' := fun h => hl (h ▸ List.mem_cons_self c l2)
    have hl2 : '\n' ∉ l2 := fun h => hl (List.mem_cons_of_mem c h)
    have hstep : getlinesAux cur ((c :: l2) ++ '\n' :: r) =
        getlinesAux (c :: cur) (l2 ++ '\n' :: r) := by
      simp [getlinesAux, hc]
    rw [hstep, ih (c :: cur) hl2]
    simp

theorem getlines_of_ne_nil (s : List Char) (h : s ≠ []) : getlines s = getlinesAux [] s := by
  cases s with
  | nil => exact absurd rfl h
  | cons c r => rfl

theorem getlines_single (line : List Char) (hl : '\n' ∉ line) :
    getlines (line ++ ['\n']) = [line] := by
  rw [getlines_of_ne_nil _ (by simp), getlinesAux_append line [] [] hl]
  simp

theorem joinNl_ne_nil (l : List Char) (ls : List (List Char)) : joinNl (l :: ls) ≠ [] := by
  simp [joinNl]

theorem getlines_joinNl (ls : List (List Char)) (h : ∀ l ∈ ls, '\n' ∉ l) :
    getlines (joinNl ls) = ls := by
  induction ls with
  | nil => rfl
  | cons l rest ih =>
    have hjoin : joinNl (l :: rest) = l ++ '\n' :: joinNl rest := by simp [joinNl]
    rw [hjoin, getlines_of_ne_nil _ (by simp),
      getlinesAux_append l (joinNl rest) [] (h l (List.mem_cons_self l rest))]
    simp only [List.reverse_nil, List.nil_append]
    cases hr : joinNl rest with
    | nil =>
      cases rest with
      | nil => simp
      | cons a b => exact absurd hr (joinNl_ne_nil a b)
    | cons c r2 =>
      have hrest : getlines (joinNl rest) = rest :=
        ih (fun l2 hl2 => h l2 (List.mem_cons_of_mem l hl2))
      rw [hr] at hrest
      have h2 : getlinesAux [] (c :: r2) = rest := hrest
      rw [h2]

/-! ## Helper lemmas: force-array writes -/

theorem setAtChecked_some {arr arr2 : List Coord} {t : Int} {v : Coord}
    (h : setAtChecked arr t v = some arr2) :
    0 ≤ t ∧ t.toNat < arr.length ∧ arr2 = arr.set t.toNat v := by
  unfold setAtChecked at h
  split at h
  · rename_i hc
    exact ⟨hc.1, hc.2, (Option.some.injEq _ _ ▸ h).symm⟩
  · exact absurd h (by simp)

theorem writeRows_cons {tinit : Nat → Int} {g : Nat → Coord} {k : Nat}
    {line : List Char} {rest : List (List Char)} {arr arr2 : List Coord}
    (h : writeRows tinit g k (line :: rest) arr = some arr2) :
    ∃ arr1, setAtChecked arr (scanRow (tinit k) (g k) line).1
        (scanRow (tinit k) (g k) line).2 = some arr1 ∧
      writeRows tinit g (k + 1) rest arr1 = some arr2 := by
  unfold writeRows at h
  revert h
  cases hset : setAtChecked arr (scanRow (tinit k) (g k) line).1
      (scanRow (tinit k) (g k) line).2 with
  | none => intro h; exact absurd h (by simp)
  | some arr1 => exact fun h => ⟨arr1, rfl, h⟩

theorem writeRows_length {tinit : Nat → Int} {g : Nat → Coord} :
    ∀ (rows : List (List Char)) (k : Nat) (arr arr2 : List Coord),
      writeRows tinit g k rows arr = some arr2 → arr2.length = arr.length := by
  intro rows
  induction rows with
  | nil => intro k arr arr2 h; cases h; rfl
  | cons line rest ih =>
    intro k arr arr2 h
    obtain ⟨arr1, hset, hrest⟩ := writeRows_cons h
    obtain ⟨_, _, rfl⟩ := setAtChecked_some hset
    rw [ih (k + 1) _ _ hrest, List.length_set]

theorem writeRows_frame {tinit : Nat → Int} {g : Nat → Coord} :
    ∀ (rows : List (List Char)) (k : Nat) (arr arr2 : List Coord) (t : Int),
      writeRows tinit g k rows arr = some arr2 →
      0 ≤ t →
      (∀ m l2, rows[m]? = some l2 → (scanRow (tinit (k + m)) (g (k + m)) l2).1 ≠ t) →
      arr2[t.toNat]? = arr[t.toNat]? := by
  intro rows
  induction rows with
  | nil => intro k arr arr2 t h _ _; cases h; rfl
  | cons line rest ih =>
    intro k arr arr2 t h ht hne
    obtain ⟨arr1, hset, hrest⟩ := writeRows_cons h
    obtain ⟨ht2, _, rfl⟩ := setAtChecked_some hset
    have hhead : (scanRow (tinit k) (g k) line).1 ≠ t := by
      have := hne 0 line (by simp)
      simpa using this
    have hne2 : (scanRow (tinit k) (g k) line).1.toNat ≠ t.toNat := by
      intro hcontra
      exact hhead (by omega)
    have hrest2 : ∀ m l2, rest[m]? = some l2 →
        (scanRow (tinit (k + 1 + m)) (g (k + 1 + m)) l2).1 ≠ t := by
      intro m l2 hm
      have := hne (m + 1) l2 (by simpa using hm)
      simpa [Nat.add_comm, Nat.add_assoc, Nat.add_left_comm] using this
    rw [ih (k + 1) _ _ t hrest ht hrest2, List.getElem?_set_ne hne2]

theorem writeRows_stores_at_tag {tinit : Nat → Int} {g : Nat → Coord} :
    ∀ (pre : List (List Char)) (k : Nat) (post : List (List Char)) (line : List Char)
      (arr arr2 : List Coord) (t : Int) (c : Coord),
      writeRows tinit g k (pre ++ line :: post) arr = some arr2 →
      scanRow (tinit (k + pre.length)) (g (k + pre.length)) line = (t, c) →
      (∀ m l2, post[m]? = some l2 →
        (scanRow (tinit (k + pre.length + 1 + m)) (g (k + pre.length + 1 + m)) l2).1 ≠ t) →
      arr2[t.toNat]? = some c := by
  intro pre
  induction pre with
  | nil =>
    intro k post line arr arr2 t c h hscan hpost
    simp only [List.nil_append, List.length_nil, Nat.add_zero] at h hscan hpost
    obtain ⟨arr1, hset, hrest⟩ := writeRows_cons h
    rw [hscan] at hset
    obtain ⟨ht, hlt, rfl⟩ := setAtChecked_some hset
    have hframe := writeRows_frame post (k + 1) _ _ t hrest ht
      (fun m l2 hm => hpost m l2 hm)
    rw [hframe, List.getElem?_set_eq_of_lt _ hlt]
  | cons p pre2 ih =>
    intro k post line arr arr2 t c h hscan hpost
    simp only [List.cons_append] at h
    obtain ⟨arr1, hset, hrest⟩ := writeRows_cons h
    have hlen : k + 1 + pre2.length = k + (p :: pre2).length := by
      simp [List.length_cons]; omega
    exact ih (k + 1) post line arr1 arr2 t c hrest (by rw [hlen]; exact hscan)
      (by rw [hlen]; exact hpost)

theorem writeRows_single (tinit : Nat → Int) (g : Nat → Coord)
    {line : List Char} {arr : List Coord} {t : Int} {c : Coord}
    (hscan : scanRow (tinit 0) (g 0) line = (t, c)) (ht : 0 ≤ t)
    (hlt : t.toNat < arr.length) :
    writeRows tinit g 0 [line] arr = some (arr.set t.toNat c) := by
  simp only [writeRows, hscan]
  simp [setAtChecked, ht, hlt]

/-- Claim C2: for every comparison of an observed value against an
expected value, the computed relative error equals `|o - e|` when
`min(|o|, |e|) = 0`, and `|o - e| / min(|o|, |e|)` otherwise. -/
theorem c2_relative_error_formula (o e : ℚ) :
    relativeError o e = if min |o| |e| = 0 then |o - e| else |o - e| / min |o| |e| := rfl

/-- Claim C1 (evaluation at the failing input): parsing an openable
document whose first content event is a bare scalar leaves every field
of the configuration at its constructed default — but `parse_file`
returns `0`, so `main` does not take its exit-code-2 branch. -/
theorem c1_bare_scalar_returns_zero_config_default :
    parseAliased zeroGarbage bareScalarEvents defaultConfig = some (0, defaultConfig) ∧
      ¬ exitsWithTwo 0 := by
  constructor
  · simp [parseAliased, bareScalarEvents, parseLoop, consumeEvent, PState.stop]
  · simp [exitsWithTwo]

/-- Claim C4 (counterexample): after `reset()` and a single
`add(0)` — a perfectly possible relative-error sample — `max()` does
return the largest sample (`0`), but `idx()` returns `-1`, not the
1-based position `1` of that maximum. -/
theorem c4_zero_sample_idx_counterexample :
    (ErrorStats.addList ErrorStats.reset [(0 : ℚ)]).maxv = 0 ∧
      (ErrorStats.addList ErrorStats.reset [(0 : ℚ)]).idx ≠ 1 := by
  constructor
  · simp [ErrorStats.addList, ErrorStats.add, ErrorStats.reset, ErrorStats.maxv]
  · simp [ErrorStats.addList, ErrorStats.add, ErrorStats.reset, ErrorStats.idx]

/-- One `add` preserves the `ErrorStats` invariant. -/
theorem statsSeenInv_add {seen : List ℚ} {s : ErrorStats} {v : ℚ}
    (h : statsSeenInv seen s) : statsSeenInv (seen ++ [v]) (s.add v) := by
  obtain ⟨hnum, h0, hub, hpos, hnonpos⟩ := h
  by_cases hc : s.maxerr < v
  · have hme : (s.add v).maxerr = v := by simp [ErrorStats.add, hc]
    have hmi : (s.add v).maxidx = s.num + 1 := by simp [ErrorStats.add, hc]
    have hvpos : 0 < v := lt_of_le_of_lt h0 hc
    refine ⟨?_, ?_, ?_, ?_, ?_⟩
    · simp [ErrorStats.add, hnum]
    · rw [hme]; exact le_of_lt hvpos
    · intro w hw
      rw [hme]
      rcases List.mem_append.mp hw with hw2 | hw2
      · exact le_of_lt (lt_of_le_of_lt (hub w hw2) hc)
      · simp at hw2; exact hw2.le
    · intro _
      rw [hmi, hme, hnum]
      refine ⟨by omega, by simp, ?_, ?_⟩
      · have htn : ((seen.length : Int) + 1).toNat - 1 = seen.length := by omega
        rw [htn]
        simp
      · intro m w hm hw
        have hm2 : m < seen.length := by omega
        rw [List.getElem?_append, if_pos hm2] at hw
        exact lt_of_le_of_lt (hub w (List.getElem?_mem hw)) hc
    · intro hall
      exact absurd hvpos (not_lt.mpr (hall v (by simp)))
  · have hme : (s.add v).maxerr = s.maxerr := by simp [ErrorStats.add, hc]
    have hmi : (s.add v).maxidx = s.maxidx := by simp [ErrorStats.add, hc]
    have hvle : v ≤ s.maxerr := not_lt.mp hc
    refine ⟨?_, ?_, ?_, ?_, ?_⟩
    · simp [ErrorStats.add, hnum]
    · rw [hme]; exact h0
    · intro w hw
      rw [hme]
      rcases List.mem_append.mp hw with hw2 | hw2
      · exact hub w hw2
      · simp at hw2; exact hw2.le.trans hvle
    · intro hex
      have hexseen : ∃ w ∈ seen, 0 < w := by
        by_cases hsp : ∃ w ∈ seen, 0 < w
        · exact hsp
        · exfalso
          obtain ⟨w, hw, hwpos⟩ := hex
          rcases List.mem_append.mp hw with hw2 | hw2
          · exact hsp ⟨w, hw2, hwpos⟩
          · simp at hw2
            subst hw2
            have hz := hnonpos (fun u hu =>
              le_of_not_lt (fun hupos => hsp ⟨u, hu, hupos⟩))
            rw [hz.1] at hvle
            exact absurd (lt_of_lt_of_le hwpos hvle) (lt_irrefl 0)
      obtain ⟨h1, h2, h3, h4⟩ := hpos hexseen
      have hidxlen : s.maxidx.toNat ≤ seen.length := by omega
      refine ⟨by rw [hmi]; exact h1, by rw [hmi]; simp; omega, ?_, ?_⟩
      · rw [hmi, hme, List.getElem?_append, if_pos (by omega)]
        exact h3
      · intro m w hm hw
        rw [hmi] at hm
        rw [List.getElem?_append, if_pos (by omega)] at hw
        rw [hme]
        exact h4 m w hm hw
    · intro hall
      have hz := hnonpos (fun u hu => hall u (List.mem_append.mpr (Or.inl hu)))
      rw [hme, hmi]
      exact hz

/-- `addList` preserves the `ErrorStats` invariant. -/
theorem statsSeenInv_addList :
    ∀ (l seen : List ℚ) (s : ErrorStats), statsSeenInv seen s →
      statsSeenInv (seen ++ l) (s.addList l) := by
  intro l
  induction l with
  | nil => intro seen s h; simpa [ErrorStats.addList] using h
  | cons v rest ih =>
    intro seen s h
    have h3 := ih (seen ++ [v]) (s.add v) (statsSeenInv_add h)
    have heq : (seen ++ [v]) ++ rest = seen ++ v :: rest := by simp
    rw [heq] at h3
    simpa [ErrorStats.addList] using h3

/-- The freshly reset accumulator satisfies the invariant for the empty
sample list. -/
theorem statsSeenInv_reset : statsSeenInv [] ErrorStats.reset := by
  refine ⟨rfl, le_refl 0, ?_, ?_, ?_⟩ <;> simp [ErrorStats.reset]

/-- Claim C4 (amended): after `reset()` and `N ≥ 1` calls `add(v_i)`
of which at least one sample is positive, `max()` returns the largest
sample and `idx()` the 1-based position of its *first* occurrence;
(when no sample is positive, `max()` returns `0` and `idx()` stays
`-1`, per the counterexample). -/
theorem c4_errorstats_max_first_idx_amended (l : List ℚ) (hpos : ∃ v ∈ l, 0 < v) :
    (∀ v ∈ l, v ≤ (ErrorStats.addList ErrorStats.reset l).maxv) ∧
    1 ≤ (ErrorStats.addList ErrorStats.reset l).idx ∧
    (ErrorStats.addList ErrorStats.reset l).idx ≤ (l.length : Int) ∧
    l[(ErrorStats.addList ErrorStats.reset l).idx.toNat - 1]? =
      some (ErrorStats.addList ErrorStats.reset l).maxv ∧
    (∀ m w, m + 1 < (ErrorStats.addList ErrorStats.reset l).idx.toNat →
      l[m]? = some w → w < (ErrorStats.addList ErrorStats.reset l).maxv) := by
  have h := statsSeenInv_addList l [] ErrorStats.reset statsSeenInv_reset
  rw [List.nil_append] at h
  obtain ⟨_, _, hub, hp, _⟩ := h
  obtain ⟨h1, h2, h3, h4⟩ := hp hpos
  exact ⟨hub, h1, h2, h3, h4⟩

/-- Witness for C4: for the samples `[1/2, 2, 2, 1]` the theorem places
the maximum `2` at 1-based index 2 (the first of the two ties). -/
theorem c4_errorstats_max_first_idx_amended_witness :
    1 ≤ (ErrorStats.addList ErrorStats.reset [1 / 2, 2, 2, 1]).idx ∧
    ([1 / 2, 2, 2, 1] : List ℚ)[(ErrorStats.addList ErrorStats.reset
        [1 / 2, 2, 2, 1]).idx.toNat - 1]? =
      some (ErrorStats.addList ErrorStats.reset [1 / 2, 2, 2, 1]).maxv := by
  have h := c4_errorstats_max_first_idx_amended [1 / 2, 2, 2, 1]
    ⟨2, by norm_num, by norm_num⟩
  exact ⟨h.2.1, h.2.2.2.1⟩

/-- Claim C6 (counterexample): in the plain variant's schedule at
`epsilon = 1`, `nlocal = 1`, it is not the case that the run-phase
force *and energy* comparisons all use `10 * epsilon` (with stress at
`epsilon`): the run-phase energy comparison uses plain `epsilon`. -/
theorem c6_run_energy_tolerance_counterexample :
    ¬ (∀ p ∈ plainSchedule 1 1,
        (p.1.2 = CmpField.stress → p.2 = 1) ∧
          (p.1.1 = CmpPhase.runPhase ∧ (p.1.2 = CmpField.force ∨ p.1.2 = CmpField.energy) →
            p.2 = 10 * 1)) := by
  intro h
  have hmem : ((CmpPhase.runPhase, CmpField.energy), (1 : ℚ)) ∈ plainSchedule 1 1 := by
    simp [plainSchedule, List.range_succ]
  have := (h _ hmem).2 ⟨rfl, Or.inr rfl⟩
  norm_num at this

/-- Claim C6 (amended): in the plain variant every stress comparison
and every energy comparison (both phases, including the cross-check)
and the init-phase force comparisons use the fixture's `epsilon`;
only the per-atom force comparisons after the short run use
`10 * epsilon`. -/
theorem c6_plain_tolerance_schedule_amended (eps : ℚ) (nlocal : Nat) :
    ∀ p ∈ plainSchedule eps nlocal,
      p.2 = if p.1.1 = CmpPhase.runPhase ∧ p.1.2 = CmpField.force then 10 * eps else eps := by
  intro p hp
  have hshape : p = ((CmpPhase.initPhase, CmpField.force), eps) ∨
      p = ((CmpPhase.initPhase, CmpField.stress), eps) ∨
      p = ((CmpPhase.initPhase, CmpField.energy), eps) ∨
      p = ((CmpPhase.runPhase, CmpField.force), 10 * eps) ∨
      p = ((CmpPhase.runPhase, CmpField.stress), eps) ∨
      p = ((CmpPhase.runPhase, CmpField.energy), eps) ∨
      p = ((CmpPhase.runPhase, CmpField.energyCross), eps) := by
    simp only [plainSchedule, List.mem_append, List.mem_flatMap, List.mem_range,
      List.mem_replicate, List.mem_singleton, List.mem_cons, List.not_mem_nil,
      or_false] at hp
    tauto
  rcases hshape with h | h | h | h | h | h | h <;> subst h <;> simp

/-- Witness for C6 (amended): instantiated at `eps = 1`, `nlocal = 1`
for the run-phase energy entry, whose tolerance is plain `eps = 1`. -/
theorem c6_plain_tolerance_schedule_amended_witness :
    (1 : ℚ) = if (CmpPhase.runPhase = CmpPhase.runPhase ∧
        CmpField.energy = CmpField.force) then 10 * 1 else 1 := by
  have h := c6_plain_tolerance_schedule_amended 1 1
    ((CmpPhase.runPhase, CmpField.energy), 1) (by simp [plainSchedule, List.range_succ])
  simpa using h

/-- Claim C8 (amended): the intel variant's tolerance equals
`5 * epsilon * 1000000 ^ k`, where `k` is the number of post commands
containing `"bond_modify table"` but not `"bond_modify table 0"` — the
large factor is applied once *per matching command*, so it is `1000000`
exactly when exactly one command matches (and `1` when none does). -/
theorem c8_intel_epsilon_amended (eps : ℚ) (cmds : List String) :
    intelEpsilon eps cmds = 5 * eps * 1000000 ^ (cmds.countP intelTableMatch) := by
  suffices h : ∀ (l : List String) (a : ℚ),
      l.foldl (fun e c => if intelTableMatch c then e * 1000000 else e) a =
        a * 1000000 ^ (l.countP intelTableMatch) by
    simpa [intelEpsilon] using h cmds (5 * eps)
  intro l
  induction l with
  | nil => intro a; simp
  | cons c rest ih =>
    intro a
    by_cases hc : intelTableMatch c = true
    · simp only [List.foldl_cons, List.countP_cons, hc, if_true, ih]
      ring
    · simp only [List.foldl_cons, List.countP_cons, hc, if_false, ih]
      simp [hc]

/-- Claim C8 (counterexample): with two post commands both matching the
tabulation test, the tolerance is multiplied by `1000000` twice — the
final value is `5 · 10^12`, not the `5 · epsilon · 1000000` the claim
asserts for the "a matching command exists" case (here `epsilon = 1`). -/
theorem c8_double_match_counterexample :
    (["bond_modify table 1", "bond_modify table 1"].any intelTableMatch = true) ∧
      intelEpsilon 1 ["bond_modify table 1", "bond_modify table 1"] ≠ 5 * 1 * 1000000 := by
  constructor
  · decide
  · have h : intelTableMatch "bond_modify table 1" = true := by decide
    simp [intelEpsilon, h]

/-- Claim C9 (counterexample): the row `"2 7.5 bad"` cannot be parsed
as `atomID fx fy fz`; the decoder raises no error, but the affected
entry (index 2) is populated with the parsed prefix and the
*uninitialized* local's values — here garbage `(·, 6, 7)` — not with
zeroed defaults. -/
theorem c9_partial_row_garbage_counterexample :
    initForcesDecode (fun _ => ⟨5, 6, 7⟩) "2 7.5 bad\n".toList
        { defaultConfig with natoms := 3 } =
      some { defaultConfig with
              natoms := 3
              init_forces := [zeroCoord, zeroCoord, ⟨15 / 2, 6, 7⟩, zeroCoord] } ∧
      (⟨15 / 2, 6, 7⟩ : Coord) ≠ zeroCoord := by
  constructor
  · simp [initForcesDecode, writeRows, scanRow, scanXYZ, setAtChecked, getlines, getlinesAux,
      scanInt, scanUInt, scanSign, scanFloat, scanExp, floatVal, qpow10, natOfDigits,
      charVal, isDigitC, isScanWs, String.toList, defaultConfig, zeroCoord]
    norm_num
  · simp [zeroCoord, Coord.mk.injEq]

/-- Claim C5: parsing a fixture whose `natoms` key decodes to `3`
followed by the worked `init_forces` block yields a force array of
length 4 with index 0 zeroed and index 2 equal to `(4, 5, 6)`; and in
general every parsed row is stored at the index given by its atom ID —
independent of the row's position, as long as no later row carries the
same ID. -/
theorem c5_forces_indexed_by_atom_id :
    (parseAliased zeroGarbage c5Events defaultConfig =
        some (0, { defaultConfig with natoms := 3, init_forces := c5Forces }) ∧
      c5Forces.length = 4 ∧ c5Forces[0]? = some zeroCoord ∧
      c5Forces[2]? = some ⟨4, 5, 6⟩) ∧
    (∀ (tinit : Nat → Int) (g : Nat → Coord) (k : Nat)
      (pre post : List (List Char)) (line : List Char) (arr arr2 : List Coord)
      (t : Int) (c : Coord),
      writeRows tinit g k (pre ++ line :: post) arr = some arr2 →
      scanRow (tinit (k + pre.length)) (g (k + pre.length)) line = (t, c) →
      (∀ m l2, post[m]? = some l2 →
        (scanRow (tinit (k + pre.length + 1 + m)) (g (k + pre.length + 1 + m)) l2).1 ≠ t) →
      arr2[t.toNat]? = some c) := by
  constructor
  · refine ⟨?_, by simp [c5Forces], by simp [c5Forces, zeroCoord], by simp [c5Forces]⟩
    simp [parseAliased, c5Events, writerEvents, pairEvents, parseLoop, consumeEvent,
      YEvent.text, dispatch, updBound, setCell, atoiQ, scanInt, scanUInt, scanSign,
      natOfDigits, charVal, isDigitC, isScanWs, initForcesDecode, writeRows, scanRow,
      scanXYZ, setAtChecked, getlines, getlinesAux, scanFloat, scanExp, floatVal, qpow10, c5Block,
      zeroGarbage, zeroCoord, String.toList, c5Forces, defaultConfig]
  · exact fun tinit g k pre post line arr arr2 t c h hscan hpost =>
      writeRows_stores_at_tag pre k post line arr arr2 t c h hscan hpost

/-- Witness for C5: the general clause applied to a concrete two-row
block (rows with IDs 2 and 1, deliberately out of file order) shows the
row `"2 4.0 5.0 6.0"` lands at index 2. -/
theorem c5_forces_indexed_by_atom_id_witness :
    writeRows (fun _ => 0) (fun _ => zeroCoord) 0
        ["2 4.0 5.0 6.0".toList, "1 1.0 2.0 3.0".toList]
        (List.replicate 4 zeroCoord) =
      some [zeroCoord, ⟨1, 2, 3⟩, ⟨4, 5, 6⟩, zeroCoord] ∧
    ([zeroCoord, ⟨1, 2, 3⟩, ⟨4, 5, 6⟩, zeroCoord] : List Coord)[(2 : Int).toNat]? =
      some ⟨4, 5, 6⟩ := by
  have hrun : writeRows (fun _ => 0) (fun _ => zeroCoord) 0
      ["2 4.0 5.0 6.0".toList, "1 1.0 2.0 3.0".toList]
      (List.replicate 4 zeroCoord) =
      some [zeroCoord, ⟨1, 2, 3⟩, ⟨4, 5, 6⟩, zeroCoord] := by
    simp [writeRows, scanRow, scanXYZ, setAtChecked, scanInt, scanUInt, scanSign, scanFloat,
      scanExp, floatVal, qpow10, natOfDigits, charVal, isDigitC, isScanWs,
      String.toList, zeroCoord, List.replicate] <;> norm_num
  refine ⟨hrun, ?_⟩
  have hscan : scanRow ((fun _ => (0 : Int)) (0 + List.length ([] : List (List Char))))
      ((fun _ => zeroCoord) (0 + List.length ([] : List (List Char))))
      "2 4.0 5.0 6.0".toList = (2, ⟨4, 5, 6⟩) := by
    simp [scanRow, scanXYZ, scanInt, scanUInt, scanSign, scanFloat, scanExp, floatVal, qpow10,
      natOfDigits, charVal, isDigitC, isScanWs, String.toList, zeroCoord] <;> norm_num
  exact c5_forces_indexed_by_atom_id.2 (fun _ => 0) (fun _ => zeroCoord) 0 []
    ["1 1.0 2.0 3.0".toList] "2 4.0 5.0 6.0".toList (List.replicate 4 zeroCoord)
    [zeroCoord, ⟨1, 2, 3⟩, ⟨4, 5, 6⟩, zeroCoord] 2 ⟨4, 5, 6⟩ (by simpa using hrun) hscan
    (by
      intro m l2 hm
      match m, hm with
      | 0, hm =>
        have hl2 : "1 1.0 2.0 3.0".toList = l2 := by simpa using hm
        subst hl2
        simp [scanRow, scanXYZ, scanInt, scanUInt, scanSign, scanFloat, scanExp, floatVal,
          qpow10, natOfDigits, charVal, isDigitC, isScanWs, String.toList, zeroCoord] <;>
          norm_num)

/-- Claim C10: a force row whose leading atom ID scans to a value
outside `0..natoms` drives the unchecked size-`natoms+1` vector write
out of bounds: in the total embedding the checked write's error branch
is taken, for both the `init_forces` and the `run_forces` decoder. -/
theorem c10_out_of_range_tag_write_fails
    (g : Nat → Coord) (tg : Nat → Int) (n : Nat) (cfg : TestConfig)
    (line : List Char) (t : Int) (c : Coord)
    (hnat : cfg.natoms = (n : Int)) (hnl : '\n' ∉ line)
    (hrange : t < 0 ∨ (n : Int) < t) :
    (scanRow 0 (g 0) line = (t, c) →
      initForcesDecode g (line ++ ['\n']) cfg = none) ∧
    (scanRow (tg 0) (g 0) line = (t, c) →
      runForcesDecode tg g (line ++ ['\n']) cfg = none) := by
  have hlen : ((cfg.natoms + 1).toNat) = n + 1 := by rw [hnat]; omega
  have hfail : ∀ c2 : Coord,
      setAtChecked (List.replicate (cfg.natoms + 1).toNat zeroCoord) t c2 = none := by
    intro c2
    simp only [setAtChecked, List.length_replicate]
    split
    · rename_i hcontra
      exfalso
      rcases hrange with hr2 | hr2 <;> omega
    · rfl
  constructor
  · intro hscan
    unfold initForcesDecode
    rw [getlines_single line hnl]
    simp only [writeRows, hscan, hfail c]
    rfl
  · intro hscan
    unfold runForcesDecode
    rw [getlines_single line hnl]
    simp only [writeRows, hscan, hfail c]
    rfl

/-- Witness for C10: with one atom (`natoms = 1`, array size 2) the row
`"5 1.0 2.0 3.0"` makes both decoders hit the out-of-bounds branch. -/
theorem c10_out_of_range_tag_write_fails_witness :
    initForcesDecode (fun _ => zeroCoord) ("5 1.0 2.0 3.0".toList ++ ['\n'])
        { defaultConfig with natoms := (1 : Nat) } = none ∧
    runForcesDecode (fun _ => 9) (fun _ => zeroCoord) ("5 1.0 2.0 3.0".toList ++ ['\n'])
        { defaultConfig with natoms := (1 : Nat) } = none := by
  have hscan1 : scanRow 0 ((fun _ => zeroCoord) 0) "5 1.0 2.0 3.0".toList =
      (5, ⟨1, 2, 3⟩) := by
    simp [scanRow, scanXYZ, scanInt, scanUInt, scanSign, scanFloat, scanExp, floatVal, qpow10,
      natOfDigits, charVal, isDigitC, isScanWs, String.toList, zeroCoord] <;> norm_num
  have hscan2 : scanRow ((fun _ => (9 : Int)) 0) ((fun _ => zeroCoord) 0)
      "5 1.0 2.0 3.0".toList = (5, ⟨1, 2, 3⟩) := by
    simp [scanRow, scanXYZ, scanInt, scanUInt, scanSign, scanFloat, scanExp, floatVal, qpow10,
      natOfDigits, charVal, isDigitC, isScanWs, String.toList, zeroCoord] <;> norm_num
  have h := c10_out_of_range_tag_write_fails (fun _ => zeroCoord) (fun _ => 9) 1
    { defaultConfig with natoms := (1 : Nat) } "5 1.0 2.0 3.0".toList 5 ⟨1, 2, 3⟩ rfl
    (by decide) (Or.inr (by norm_num))
  exact ⟨h.1 hscan1, h.2 hscan2⟩

/-- Claim C9 (amended): an unparsable (or partially parsable) row
raises no error; the write still happens at the scanned tag (which
falls back to the initialized `0` in `init_forces` when the ID fails to
scan), storing the parsed prefix together with the *uninitialized*
locals' values for the failed conversions, while entries no row writes
keep the zeroed defaults from the resize. -/
theorem c9_unparsable_rows_amended
    (g : Nat → Coord) (tg : Nat → Int) (n : Nat) (cfg : TestConfig)
    (line : List Char) (t : Int) (c : Coord)
    (hnat : cfg.natoms = (n : Int)) (hnl : '\n' ∉ line)
    (ht : 0 ≤ t) (htn : t.toNat ≤ n) :
    (scanRow 0 (g 0) line = (t, c) →
      ∃ a, initForcesDecode g (line ++ ['\n']) cfg = some { cfg with init_forces := a } ∧
        a.length = n + 1 ∧ a[t.toNat]? = some c ∧
        (∀ j, j ≤ n → j ≠ t.toNat → a[j]? = some zeroCoord)) ∧
    (scanRow (tg 0) (g 0) line = (t, c) →
      ∃ a, runForcesDecode tg g (line ++ ['\n']) cfg = some { cfg with run_forces := a } ∧
        a.length = n + 1 ∧ a[t.toNat]? = some c ∧
        (∀ j, j ≤ n → j ≠ t.toNat → a[j]? = some zeroCoord)) := by
  have hlen : ((cfg.natoms + 1).toNat) = n + 1 := by rw [hnat]; omega
  have hlenr : (List.replicate (cfg.natoms + 1).toNat zeroCoord).length = n + 1 := by
    rw [List.length_replicate, hlen]
  have hprops : ∀ a, a = (List.replicate (cfg.natoms + 1).toNat zeroCoord).set t.toNat c →
      a.length = n + 1 ∧ a[t.toNat]? = some c ∧
        (∀ j, j ≤ n → j ≠ t.toNat → a[j]? = some zeroCoord) := by
    intro a ha
    subst ha
    refine ⟨by rw [List.length_set, hlenr], ?_, ?_⟩
    · exact List.getElem?_set_eq_of_lt c (by omega)
    · intro j hj hne
      rw [List.getElem?_set_ne (fun hcontra => hne hcontra.symm)]
      exact List.getElem?_replicate_of_lt (by omega)
  constructor
  · intro hscan
    refine ⟨(List.replicate (cfg.natoms + 1).toNat zeroCoord).set t.toNat c, ?_,
      hprops _ rfl⟩
    unfold initForcesDecode
    rw [getlines_single line hnl,
      writeRows_single (fun _ => 0) g hscan ht (by rw [hlenr]; omega)]
    rfl
  · intro hscan
    refine ⟨(List.replicate (cfg.natoms + 1).toNat zeroCoord).set t.toNat c, ?_,
      hprops _ rfl⟩
    unfold runForcesDecode
    rw [getlines_single line hnl,
      writeRows_single tg g hscan ht (by rw [hlenr]; omega)]
    rfl

/-- Witness for C9: the partially parsable row `"2 7.5 bad"` with
garbage locals `(5, 6, 7)` (and garbage tag 9 in `run_forces`): both
decoders succeed, entry 2 holds `(7.5, 6, 7)` and entries 0, 1, 3 stay
zeroed. -/
theorem c9_unparsable_rows_amended_witness :
    (∃ a, initForcesDecode (fun _ => ⟨5, 6, 7⟩) ("2 7.5 bad".toList ++ ['\n'])
        { defaultConfig with natoms := (3 : Nat) } =
        some { { defaultConfig with natoms := (3 : Nat) } with init_forces := a } ∧
      a.length = 3 + 1 ∧ a[(2 : Int).toNat]? = some ⟨15 / 2, 6, 7⟩ ∧
      (∀ j, j ≤ 3 → j ≠ (2 : Int).toNat → a[j]? = some zeroCoord)) ∧
    (∃ a, runForcesDecode (fun _ => 9) (fun _ => ⟨5, 6, 7⟩) ("2 7.5 bad".toList ++ ['\n'])
        { defaultConfig with natoms := (3 : Nat) } =
        some { { defaultConfig with natoms := (3 : Nat) } with run_forces := a } ∧
      a.length = 3 + 1 ∧ a[(2 : Int).toNat]? = some ⟨15 / 2, 6, 7⟩ ∧
      (∀ j, j ≤ 3 → j ≠ (2 : Int).toNat → a[j]? = some zeroCoord)) := by
  have hscan1 : scanRow 0 ((fun _ => (⟨5, 6, 7⟩ : Coord)) 0) "2 7.5 bad".toList =
      (2, ⟨15 / 2, 6, 7⟩) := by
    simp [scanRow, scanXYZ, scanInt, scanUInt, scanSign, scanFloat, scanExp, floatVal, qpow10,
      natOfDigits, charVal, isDigitC, isScanWs, String.toList] <;> norm_num
  have hscan2 : scanRow ((fun _ => (9 : Int)) 0) ((fun _ => (⟨5, 6, 7⟩ : Coord)) 0)
      "2 7.5 bad".toList = (2, ⟨15 / 2, 6, 7⟩) := by
    simp [scanRow, scanXYZ, scanInt, scanUInt, scanSign, scanFloat, scanExp, floatVal, qpow10,
      natOfDigits, charVal, isDigitC, isScanWs, String.toList] <;> norm_num
  have h := c9_unparsable_rows_amended (fun _ => ⟨5, 6, 7⟩) (fun _ => 9) 3
    { defaultConfig with natoms := (3 : Nat) } "2 7.5 bad".toList 2 ⟨15 / 2, 6, 7⟩ rfl
    (by decide) (by norm_num) (by norm_num)
  exact ⟨h.1 hscan1, h.2 hscan2⟩

/-! ## Helper lemmas: decimal rendering inverts under scanning -/

theorem charVal_digitChar {d : Nat} (h : d < 10) : charVal (digitChar d) = d := by
  interval_cases d <;> decide

theorem isDigitC_digitChar {d : Nat} (h : d < 10) : isDigitC (digitChar d) = true := by
  interval_cases d <;> decide

theorem digitChar_ne_nl {d : Nat} (h : d < 10) : digitChar d ≠ '\n' := by
  interval_cases d <;> decide

theorem digitChar_props {d : Nat} (h : d < 10) :
    isScanWs (digitChar d) = false ∧ digitChar d ≠ '-' ∧ digitChar d ≠ '+' := by
  interval_cases d <;> exact ⟨by decide, by decide, by decide⟩

theorem takeWhile_all_append {p : Char → Bool} :
    ∀ (l r : List Char), (∀ c ∈ l, p c = true) →
      (∀ c r2, r = c :: r2 → p c = false) →
      (l ++ r).takeWhile p = l ∧ (l ++ r).dropWhile p = r := by
  intro l
  induction l with
  | nil =>
    intro r _ hr
    cases r with
    | nil => exact ⟨rfl, rfl⟩
    | cons c r2 =>
      simp [List.takeWhile, List.dropWhile, hr c r2 rfl]
  | cons a l2 ih =>
    intro r hl hr
    have ha : p a = true := hl a (List.mem_cons_self a l2)
    have h2 := ih r (fun c hc => hl c (List.mem_cons_of_mem a hc)) hr
    simp [List.takeWhile, List.dropWhile, ha, h2.1, h2.2]

theorem natDigits_ne_nil (n : Nat) : natDigits n ≠ [] := by
  rw [natDigits]
  split <;> simp

theorem natDigits_lt (n : Nat) : ∀ d ∈ natDigits n, d < 10 := by
  induction n using Nat.strong_induction_on with
  | _ n ih =>
    rw [natDigits]
    split
    · rename_i h
      intro d hd
      simp at hd
      omega
    · rename_i h
      intro d hd
      rcases List.mem_append.mp hd with hd2 | hd2
      · exact ih (n / 10) (Nat.div_lt_self (by omega) (by omega)) d hd2
      · simp at hd2
        omega

theorem natOfDigits_append (l : List Char) (c : Char) :
    natOfDigits (l ++ [c]) = natOfDigits l * 10 + charVal c := by
  simp [natOfDigits, List.foldl_append]

theorem natOfDigits_natChars (n : Nat) : natOfDigits (natChars n) = n := by
  induction n using Nat.strong_induction_on with
  | _ n ih =>
    unfold natChars
    rw [natDigits]
    split
    · rename_i h
      simp [natOfDigits, charVal_digitChar h]
    · rename_i h
      rw [List.map_append, List.map_singleton, natOfDigits_append]
      have h1 := ih (n / 10) (Nat.div_lt_self (by omega) (by omega))
      unfold natChars at h1
      rw [h1, charVal_digitChar (Nat.mod_lt n (by omega))]
      omega

theorem natChars_all_digit (n : Nat) : ∀ c ∈ natChars n, isDigitC c = true := by
  intro c hc
  obtain ⟨d, hd, rfl⟩ := List.mem_map.mp hc
  exact isDigitC_digitChar (natDigits_lt n d hd)

theorem natChars_ne_nil (n : Nat) : natChars n ≠ [] := by
  unfold natChars
  simp [natDigits_ne_nil n]

theorem scanUInt_natChars (n : Nat) (r : List Char) (hr : noDigitStart r) :
    scanUInt (natChars n ++ r) = some (n, r) := by
  obtain ⟨ht, hd⟩ := takeWhile_all_append (natChars n) r (natChars_all_digit n)
    (fun c r2 h2 => hr c r2 h2)
  unfold scanUInt
  rw [ht, hd]
  simp [List.isEmpty_iff, natChars_ne_nil n, natOfDigits_natChars]

theorem dropWhile_ws_replicate (k : Nat) (l : List Char) :
    (List.replicate k ' ' ++ l).dropWhile isScanWs = l.dropWhile isScanWs := by
  induction k with
  | zero => rfl
  | succ k2 ih => simpa [List.replicate_succ, List.dropWhile] using ih

theorem natChars_head_props (n : Nat) :
    ∀ c rest, natChars n = c :: rest →
      isDigitC c = true ∧ isScanWs c = false ∧ c ≠ '-' ∧ c ≠ '+' := by
  intro c rest h
  have hc : c ∈ natChars n := by rw [h]; exact List.mem_cons_self c rest
  obtain ⟨d, hd, rfl⟩ := List.mem_map.mp hc
  have hlt := natDigits_lt n d hd
  exact ⟨isDigitC_digitChar hlt, (digitChar_props hlt).1, (digitChar_props hlt).2.1,
    (digitChar_props hlt).2.2⟩

theorem scanInt_pad_intChars (k : Nat) (t : Int) (r : List Char) (hr : noDigitStart r) :
    scanInt (List.replicate k ' ' ++ intChars t ++ r) = some (t, r) := by
  unfold scanInt
  rw [List.append_assoc, dropWhile_ws_replicate]
  by_cases ht : t < 0
  · have hchars : intChars t = '-' :: natChars (-t).toNat := by
      simp [intChars, ht]
    rw [hchars]
    have hdw : (('-' :: natChars (-t).toNat) ++ r).dropWhile isScanWs =
        '-' :: (natChars (-t).toNat ++ r) := by
      simp [List.dropWhile, isScanWs]
    have hsign : scanSign ('-' :: (natChars (-t).toNat ++ r)) =
        (true, natChars (-t).toNat ++ r) := by
      simp [scanSign]
    simp only [hdw, hsign, scanUInt_natChars _ r hr]
    simp
    omega
  · have hchars : intChars t = natChars t.toNat := by
      simp [intChars, ht]
    rw [hchars]
    rcases hnc : natChars t.toNat with _ | ⟨c, rest⟩
    · exact absurd hnc (natChars_ne_nil t.toNat)
    · obtain ⟨_, hws, hminus, hplus⟩ := natChars_head_props t.toNat c rest hnc
      have hdw : ((c :: rest) ++ r).dropWhile isScanWs = c :: (rest ++ r) := by
        simp [List.dropWhile, hws]
      have hsign : scanSign (c :: (rest ++ r)) = (false, c :: (rest ++ r)) := by
        simp [scanSign, hminus, hplus]
      have hback : c :: (rest ++ r) = natChars t.toNat ++ r := by rw [hnc]; simp
      rw [hdw]
      simp only [hsign]
      simp [hback, scanUInt_natChars _ r hr] <;> omega

theorem atoiQ_intToString (t : Int) : atoiQ (intToString t) = t := by
  have h := scanInt_pad_intChars 0 t [] (fun c r2 h2 => by cases h2)
  simp only [List.replicate_zero, List.nil_append, List.append_nil] at h
  simp [atoiQ, intToString, h]

theorem intChars_ne_nl (t : Int) : '\n' ∉ intChars t := by
  intro hmem
  unfold intChars at hmem
  split at hmem
  · rcases List.mem_cons.mp hmem with h | h
    · exact absurd h.symm (by decide)
    · obtain ⟨d, hd, hdc⟩ := List.mem_map.mp h
      exact digitChar_ne_nl (natDigits_lt _ d hd) hdc
  · obtain ⟨d, hd, hdc⟩ := List.mem_map.mp hmem
    exact digitChar_ne_nl (natDigits_lt _ d hd) hdc

theorem scanRow_fst {t0 : Int} {g : Coord} {line : List Char} {t : Int} {r1 : List Char}
    (h : scanInt line = some (t, r1)) : (scanRow t0 g line).1 = t := by
  unfold scanRow
  rw [h]

/-! ## Helper lemmas: heap cells and the accepted-pair loop -/

theorem setCell_same (st : Store) (b : Bool) (v : TestConfig) : setCell st b v b = v := by
  simp [setCell]

theorem setCell_setCell (st : Store) (b : Bool) (v w : TestConfig) :
    setCell (setCell st b v) b w = setCell st b w := by
  funext b2
  unfold setCell
  by_cases h : b2 = b <;> simp [h]

theorem parseLoop_pairs (i : Bool) (G : Garbage) :
    ∀ (ps : List (String × String)) (key : String) (st : Store) (tr : List YEvent),
      parseLoop i G .acceptKey key st (pairEvents ps ++ .mapEnd :: tr) =
        (foldDispatch i G ps st).map (fun st2 => ((0 : Int), st2)) := by
  intro ps
  induction ps with
  | nil =>
    intro key st tr
    simp [pairEvents, parseLoop, consumeEvent, foldDispatch]
  | cons p rest ih =>
    intro key st tr
    have hpe : pairEvents (p :: rest) = .scalar p.1 :: .scalar p.2 :: pairEvents rest := by
      simp [pairEvents]
    rw [hpe]
    rcases hd : dispatch i G p.1 p.2 st with _ | ⟨b, st2⟩
    · simp [parseLoop, consumeEvent, YEvent.text, hd, foldDispatch]
    · simp [parseLoop, consumeEvent, YEvent.text, hd, foldDispatch, ih]

theorem parseAliased_writerEvents (G : Garbage) (ps : List (String × String))
    (c : TestConfig) :
    parseAliased G (writerEvents ps) c =
      (foldDispatch true G ps (fun _ => c)).map (fun st => ((0 : Int), st true)) := by
  unfold parseAliased writerEvents
  have h3 : parseLoop true G .start "" (fun _ => c)
      (.streamStart :: .docStart :: .mapStart :: (pairEvents ps ++ [.mapEnd, .docEnd, .streamEnd])) =
      parseLoop true G .acceptKey "" (fun _ => c)
        (pairEvents ps ++ .mapEnd :: [.docEnd, .streamEnd]) := by
    simp [parseLoop, consumeEvent]
  rw [h3, parseLoop_pairs]
  rcases foldDispatch true G ps (fun _ => c) with _ | st <;> simp

/-! ## Helper lemmas: block decoders in the aliased configuration -/

theorem pushLines_fold_aliased (getL : TestConfig → List String)
    (setL : TestConfig → List String → TestConfig)
    (hget : ∀ c l, getL (setL c l) = l)
    (hset : ∀ c l1 l2, setL (setL c l1) l2 = setL c l2) :
    ∀ (lines : List String) (acc : List String) (st : Store),
      (lines.map String.toList).foldl
        (fun s line => setCell s true (setL (s true) (getL (s true) ++ [String.mk line])))
        (setCell st true (setL (st true) acc)) =
      setCell st true (setL (st true) (acc ++ lines)) := by
  intro lines
  induction lines with
  | nil => intro acc st; simp
  | cons l rest ih =>
    intro acc st
    simp only [List.map_cons, List.foldl_cons]
    have hstep : setCell (setCell st true (setL (st true) acc)) true
        (setL ((setCell st true (setL (st true) acc)) true)
          (getL ((setCell st true (setL (st true) acc)) true) ++ [String.mk l.toList])) =
        setCell st true (setL (st true) (acc ++ [l])) := by
      rw [setCell_same, hget, hset, setCell_setCell]
      rfl
    rw [hstep, ih (acc ++ [l]) st]
    simp

theorem pushLinesDecode_aliased (getL : TestConfig → List String)
    (setL : TestConfig → List String → TestConfig)
    (hget : ∀ c l, getL (setL c l) = l)
    (hset : ∀ c l1 l2, setL (setL c l1) l2 = setL c l2)
    (ls : List String) (hls : ∀ s ∈ ls, noNl s) (st : Store) :
    pushLinesDecode getL setL true (cmdBlock ls).toList st =
      setCell st true (setL (st true) ls) := by
  unfold pushLinesDecode cmdBlock
  have hgl : getlines (joinNl (ls.map String.toList)) = ls.map String.toList :=
    getlines_joinNl _ (by
      intro l hl
      obtain ⟨s, hs, rfl⟩ := List.mem_map.mp hl
      exact hls s hs)
  show (getlines (joinNl (ls.map String.toList))).foldl _ _ = _
  rw [hgl]
  have h := pushLines_fold_aliased getL setL hget hset ls [] st
  rw [List.nil_append] at h
  exact h

theorem findIdxAux_all_false {p : Char → Bool} :
    ∀ l : List Char, (∀ c ∈ l, p c = false) → findIdxAux p l = none := by
  intro l
  induction l with
  | nil => intro _; rfl
  | cons c r ih =>
    intro h
    simp [findIdxAux, h c (List.mem_cons_self c r),
      ih (fun c2 hc2 => h c2 (List.mem_cons_of_mem c hc2))]

theorem findIdxAux_append_sat {p : Char → Bool} :
    ∀ (a : List Char) (x : Char) (r : List Char),
      (∀ c ∈ a, p c = false) → p x = true →
      findIdxAux p (a ++ x :: r) = some a.length := by
  intro a
  induction a with
  | nil => intro x r _ hx; simp [findIdxAux, hx]
  | cons c a2 ih =>
    intro x r ha hx
    simp [findIdxAux, ha c (List.mem_cons_self c a2),
      ih x r (fun c2 hc2 => ha c2 (List.mem_cons_of_mem c hc2)) hx]

theorem parsePrereqLine_mk (a b : List Char) (ha : ∀ c ∈ a, isWsST c = false)
    (hb0 : b ≠ []) (hb : ∀ c ∈ b, isWsST c = false) :
    parsePrereqLine (a ++ ' ' :: b) = some (String.mk a, String.mk b) := by
  have hi : findIdxFrom isWsST 0 (a ++ ' ' :: b) = some a.length := by
    unfold findIdxFrom
    rw [List.drop_zero, findIdxAux_append_sat a ' ' b ha (by decide)]
    rfl
  have hdropa : (a ++ ' ' :: b).drop a.length = ' ' :: b := List.drop_left a (' ' :: b)
  have hj : findIdxFrom (fun c => !isWsST c) a.length (a ++ ' ' :: b) =
      some (1 + a.length) := by
    unfold findIdxFrom
    rw [hdropa]
    cases b with
    | nil => exact absurd rfl hb0
    | cons c b2 =>
      have hc : (fun c2 => !isWsST c2) c = true := by
        simp [hb c (List.mem_cons_self c b2)]
      have : findIdxAux (fun c2 => !isWsST c2) (' ' :: c :: b2) = some 1 := by
        simp [findIdxAux, hc]
        decide
      rw [this]
      rfl
  have hdropb : (a ++ ' ' :: b).drop (1 + a.length) = b := by
    have : a ++ ' ' :: b = (a ++ [' ']) ++ b := by simp
    rw [this, Nat.add_comm 1 a.length]
    have hlen : a.length + 1 = (a ++ [' ']).length := by simp
    rw [hlen]
    exact List.drop_left (a ++ [' ']) b
  have hm : findIdxFrom isWsST (1 + a.length) (a ++ ' ' :: b) = none := by
    unfold findIdxFrom
    rw [hdropb, findIdxAux_all_false b hb]
    rfl
  have hkey : (a ++ ' ' :: b).take a.length = a := List.take_left a (' ' :: b)
  unfold parsePrereqLine
  simp only [hi, hj, hm, hdropb, hkey]

theorem prereq_fold_aliased :
    ∀ (ps : List (String × String)), (∀ p ∈ ps, prereqClean p) →
      ∀ (acc : List (String × String)) (st : Store),
      ((ps.map (fun p => p.1.toList ++ ' ' :: p.2.toList)).foldl
        (fun s line =>
          match parsePrereqLine line with
          | none => s
          | some kv =>
            setCell s true { s true with prerequisites := (s true).prerequisites ++ [kv] })
        (setCell st true { st true with prerequisites := acc })) =
      setCell st true { st true with prerequisites := acc ++ ps } := by
  intro ps
  induction ps with
  | nil => intro _ acc st; simp
  | cons p rest ih =>
    intro hclean acc st
    obtain ⟨hp1, hp2, hp3⟩ := hclean p (List.mem_cons_self p rest)
    have hline : parsePrereqLine (p.1.toList ++ ' ' :: p.2.toList) = some p := by
      rw [parsePrereqLine_mk p.1.toList p.2.toList (fun c hc => (hp1 c hc).1) hp2
        (fun c hc => (hp3 c hc).1)]
      rfl
    simp only [List.map_cons, List.foldl_cons, hline]
    have hstep : setCell (setCell st true { st true with prerequisites := acc }) true
        { (setCell st true { st true with prerequisites := acc }) true with
            prerequisites :=
              ((setCell st true { st true with prerequisites := acc }) true).prerequisites
                ++ [p] } =
        setCell st true { st true with prerequisites := acc ++ [p] } := by
      rw [setCell_same, setCell_setCell]
    rw [hstep, ih (fun q hq => hclean q (List.mem_cons_of_mem p hq)) (acc ++ [p]) st]
    simp

theorem prereqDecode_aliased (ps : List (String × String))
    (hps : ∀ p ∈ ps, prereqClean p) (st : Store) :
    prereqDecode true (prereqBlock ps).toList st =
      setCell st true { st true with prerequisites := ps } := by
  unfold prereqDecode prereqBlock
  have hgl : getlines (joinNl (ps.map (fun p => p.1.toList ++ ' ' :: p.2.toList))) =
      ps.map (fun p => p.1.toList ++ ' ' :: p.2.toList) := by
    apply getlines_joinNl
    intro l hl
    obtain ⟨p, hp, rfl⟩ := List.mem_map.mp hl
    obtain ⟨hp1, _, hp3⟩ := hps p hp
    intro hmem
    rcases List.mem_append.mp hmem with h2 | h2
    · exact absurd rfl (hp1 '\n' h2).2
    · rcases List.mem_cons.mp h2 with h3 | h3
      · exact absurd h3.symm (by decide)
      · exact absurd rfl (hp3 '\n' h3).2
  show (getlines (joinNl (ps.map (fun p => p.1.toList ++ ' ' :: p.2.toList)))).foldl _ _ = _
  rw [hgl]
  have h := prereq_fold_aliased ps hps [] st
  rw [List.nil_append] at h
  exact h

/-! ## Helper lemmas: the writer's force blocks re-parse successfully -/

theorem writeRows_total {tinit : Nat → Int} {g : Nat → Coord} :
    ∀ (rows : List (List Char)) (k : Nat) (arr : List Coord),
      (∀ m line, rows[m]? = some line →
        0 ≤ (scanRow (tinit (k + m)) (g (k + m)) line).1 ∧
        ((scanRow (tinit (k + m)) (g (k + m)) line).1).toNat < arr.length) →
      ∃ arr2, writeRows tinit g k rows arr = some arr2 ∧ arr2.length = arr.length := by
  intro rows
  induction rows with
  | nil => intro k arr _; exact ⟨arr, rfl, rfl⟩
  | cons line rest ih =>
    intro k arr hcond
    have h0 := hcond 0 line (by simp)
    rw [Nat.add_zero] at h0
    have hset : setAtChecked arr (scanRow (tinit k) (g k) line).1
        (scanRow (tinit k) (g k) line).2 =
        some (arr.set ((scanRow (tinit k) (g k) line).1).toNat
          (scanRow (tinit k) (g k) line).2) := by
      simp [setAtChecked, h0.1, h0.2]
    have hlen : (arr.set ((scanRow (tinit k) (g k) line).1).toNat
        (scanRow (tinit k) (g k) line).2).length = arr.length := List.length_set arr _ _
    obtain ⟨arr2, hw, hl⟩ := ih (k + 1)
      (arr.set ((scanRow (tinit k) (g k) line).1).toNat (scanRow (tinit k) (g k) line).2)
      (by
        intro m l2 hm
        have := hcond (m + 1) l2 (by simpa using hm)
        rw [hlen]
        have harith : k + (m + 1) = k + 1 + m := by omega
        rw [harith] at this
        exact this)
    refine ⟨arr2, ?_, by rw [hl, hlen]⟩
    simp only [writeRows, hset]
    exact hw

theorem forceRow_noNl (fmtE : ℚ → String) (hfmtE : ∀ q, noNl (fmtE q))
    (t : Int) (c : Coord) : '\n' ∉ forceRow fmtE t c := by
  intro hmem
  unfold forceRow at hmem
  rcases List.mem_append.mp hmem with h | h
  · unfold pad3 at h
    rcases List.mem_append.mp h with h2 | h2
    · exact absurd (List.eq_of_mem_replicate h2) (by decide)
    · exact intChars_ne_nl t h2
  · rcases List.mem_append.mp h with h2 | h2
    · rcases List.mem_cons.mp h2 with h3 | h3
      · exact absurd h3 (by decide)
      · exact hfmtE c.x h3
    · rcases List.mem_append.mp h2 with h3 | h3
      · rcases List.mem_cons.mp h3 with h4 | h4
        · exact absurd h4 (by decide)
        · exact hfmtE c.y h4
      · rcases List.mem_cons.mp h3 with h4 | h4
        · exact absurd h4 (by decide)
        · exact hfmtE c.z h4

theorem scanRow_forceRow_fst (fmtE : ℚ → String) (t0 t : Int) (g c : Coord) :
    (scanRow t0 g (forceRow fmtE t c)).1 = t := by
  have hrow : forceRow fmtE t c =
      List.replicate (3 - (intChars t).length) ' ' ++ intChars t ++
        ((' ' :: (fmtE c.x).toList) ++
          ((' ' :: (fmtE c.y).toList) ++ (' ' :: (fmtE c.z).toList))) := by
    unfold forceRow pad3
    simp [List.append_assoc]
  have hscan := scanInt_pad_intChars (3 - (intChars t).length) t
    ((' ' :: (fmtE c.x).toList) ++ ((' ' :: (fmtE c.y).toList) ++ (' ' :: (fmtE c.z).toList)))
    (by intro c2 r2 h2; cases h2; decide)
  rw [hrow]
  exact scanRow_fst hscan

theorem forcesBlock_getlines (fmtE : ℚ → String) (hfmtE : ∀ q, noNl (fmtE q))
    (natoms : Int) (tags : Nat → Int) (f : Nat → Coord) :
    getlines (forcesBlock fmtE natoms tags f).toList =
      (List.range natoms.toNat).map (fun k => forceRow fmtE (tags k) (f k)) := by
  show getlines (joinNl _) = _
  apply getlines_joinNl
  intro l hl
  obtain ⟨k, _, rfl⟩ := List.mem_map.mp hl
  exact forceRow_noNl fmtE hfmtE (tags k) (f k)

theorem initForcesDecode_total (g : Nat → Coord) (fmtE : ℚ → String)
    (natoms : Int) (tags : Nat → Int) (f : Nat → Coord)
    (hfmtE : ∀ q, noNl (fmtE q)) (hn : 0 ≤ natoms)
    (htags : ∀ k < natoms.toNat, 0 ≤ tags k ∧ tags k ≤ natoms)
    (c : TestConfig) (hcn : c.natoms = natoms) :
    ∃ a, initForcesDecode g (forcesBlock fmtE natoms tags f).toList c =
        some { c with init_forces := a } ∧ a.length = natoms.toNat + 1 := by
  unfold initForcesDecode
  rw [forcesBlock_getlines fmtE hfmtE natoms tags f]
  have harrlen : (List.replicate (c.natoms + 1).toNat zeroCoord).length =
      natoms.toNat + 1 := by
    rw [List.length_replicate, hcn]
    omega
  obtain ⟨arr2, hw, hl⟩ := writeRows_total
    ((List.range natoms.toNat).map (fun k => forceRow fmtE (tags k) (f k))) 0
    (List.replicate (c.natoms + 1).toNat zeroCoord)
    (by
      intro m line hm
      rw [List.getElem?_map] at hm
      by_cases hlt : m < natoms.toNat
      · have hr : (List.range natoms.toNat)[m]? = some m := by simp [hlt]
        rw [hr] at hm
        simp at hm
        rw [← hm, scanRow_forceRow_fst]
        obtain ⟨ht1, ht2⟩ := htags m hlt
        refine ⟨ht1, ?_⟩
        rw [harrlen]
        omega
      · rw [List.getElem?_eq_none (by simp; omega)] at hm
        simp at hm)
  exact ⟨arr2, by rw [hw]; rfl, by rw [hl, harrlen]⟩

theorem runForcesDecode_total (tg : Nat → Int) (g : Nat → Coord) (fmtE : ℚ → String)
    (natoms : Int) (tags : Nat → Int) (f : Nat → Coord)
    (hfmtE : ∀ q, noNl (fmtE q)) (hn : 0 ≤ natoms)
    (htags : ∀ k < natoms.toNat, 0 ≤ tags k ∧ tags k ≤ natoms)
    (c : TestConfig) (hcn : c.natoms = natoms) :
    ∃ a, runForcesDecode tg g (forcesBlock fmtE natoms tags f).toList c =
        some { c with run_forces := a } ∧ a.length = natoms.toNat + 1 := by
  unfold runForcesDecode
  rw [forcesBlock_getlines fmtE hfmtE natoms tags f]
  have harrlen : (List.replicate (c.natoms + 1).toNat zeroCoord).length =
      natoms.toNat + 1 := by
    rw [List.length_replicate, hcn]
    omega
  obtain ⟨arr2, hw, hl⟩ := writeRows_total
    ((List.range natoms.toNat).map (fun k => forceRow fmtE (tags k) (f k))) 0
    (List.replicate (c.natoms + 1).toNat zeroCoord)
    (by
      intro m line hm
      rw [List.getElem?_map] at hm
      by_cases hlt : m < natoms.toNat
      · have hr : (List.range natoms.toNat)[m]? = some m := by simp [hlt]
        rw [hr] at hm
        simp at hm
        rw [← hm, scanRow_forceRow_fst]
        obtain ⟨ht1, ht2⟩ := htags m hlt
        refine ⟨ht1, ?_⟩
        rw [harrlen]
        omega
      · rw [List.getElem?_eq_none (by simp; omega)] at hm
        simp at hm)
  exact ⟨arr2, by rw [hw]; rfl, by rw [hl, harrlen]⟩

theorem foldDispatch_step {i : Bool} {G : Garbage} {ps : List (String × String)}
    {st st2 : Store} {b : Bool} (p : String × String)
    (h : dispatch i G p.1 p.2 st = some (b, st2)) :
    foldDispatch i G (p :: ps) st = foldDispatch i G ps st2 := by
  simp [foldDispatch, h]

/-- Claim C7 (evaluation at the failing input): a reader bound to a
local `TestConfig` distinct from the global `test_config` clears the
bound object's lists but pushes the decoded `prerequisites` and
`pre_commands` entries onto the *global* object's lists. -/
theorem c7_decoders_write_global_not_bound :
    (((prereqDecode false "bond harmonic\n".toList c7Start) false).prerequisites = [] ∧
      ((prereqDecode false "bond harmonic\n".toList c7Start) true).prerequisites =
        [("pair", "lj"), ("bond", "harmonic")] ∧
      ((prereqDecode false "bond harmonic\n".toList c7Start) false).prerequisites ≠
        [("bond", "harmonic")]) ∧
    (((pushLinesDecode TestConfig.pre_commands (fun c l => { c with pre_commands := l })
        false "units real\n".toList c7Start) false).pre_commands = [] ∧
      ((pushLinesDecode TestConfig.pre_commands (fun c l => { c with pre_commands := l })
        false "units real\n".toList c7Start) true).pre_commands =
        ["log none", "units real"]) := by
  refine ⟨⟨?_, ?_, ?_⟩, ?_, ?_⟩ <;>
    simp [prereqDecode, pushLinesDecode, parsePrereqLine, findIdxFrom, findIdxAux,
      isWsST, getlines, getlinesAux, updBound, setCell, c7Start, defaultConfig, String.toList]

/-- Claim C3 (amended): writer-then-reader reproduces exactly the
fields `generate` serializes *from the configuration* — `input_file`,
`bond_style`, the command blocks and the prerequisite pairs (given
newline-free lines and whitespace-free pair components) — while
`lammps_version`, `date_generated` (further truncated by the
`find("\n") - 1` cut) and `natoms` come from the live run, `natoms`
exactly; the numeric fields round-trip through the reader's parse of
the external formatter's rendering, and the force arrays are rebuilt
with `natoms + 1` entries from the live rows. -/
theorem c3_roundtrip_amended
    (G : Garbage) (fmtG fmtE : ℚ → String) (cfg : TestConfig) (live : LiveData)
    (hfmtE : ∀ q, noNl (fmtE q))
    (hpre : ∀ s ∈ cfg.pre_commands, noNl s)
    (hpost : ∀ s ∈ cfg.post_commands, noNl s)
    (hcoeff : ∀ s ∈ cfg.bond_coeff, noNl s)
    (hprq : ∀ p ∈ cfg.prerequisites, prereqClean p)
    (hn : 0 ≤ live.natoms)
    (htags : ∀ k < live.natoms.toNat, 0 ≤ live.tags k ∧ live.tags k ≤ live.natoms)
    (hrtags : ∀ k < live.natoms.toNat, 0 ≤ live.runTags k ∧ live.runTags k ≤ live.natoms) :
    ∃ c2, parseAliased G (writerEvents (generatePairs fmtG fmtE cfg live)) defaultConfig =
        some (0, c2) ∧
      c2.input_file = cfg.input_file ∧
      c2.bond_style = cfg.bond_style ∧
      c2.pre_commands = cfg.pre_commands ∧
      c2.post_commands = cfg.post_commands ∧
      c2.bond_coeff = cfg.bond_coeff ∧
      c2.prerequisites = cfg.prerequisites ∧
      c2.lammps_version = live.version ∧
      c2.date_generated = dateCut live.dateRaw ∧
      c2.natoms = live.natoms ∧
      c2.epsilon = atofQ (fmtG cfg.epsilon) ∧
      c2.init_energy = atofQ (fmtG live.initEnergy) ∧
      c2.run_energy = atofQ (fmtG live.runEnergy) ∧
      c2.init_stress = scanStress G.initS (stressBlock fmtE live.initStress).toList ∧
      c2.run_stress = scanStress G.runS (stressBlock fmtE live.runStress).toList ∧
      c2.init_forces.length = live.natoms.toNat + 1 ∧
      c2.run_forces.length = live.natoms.toNat + 1 := by
  rw [parseAliased_writerEvents]
  simp only [generatePairs]
  rw [foldDispatch_step ("lammps_version", live.version) rfl]
  rw [foldDispatch_step ("date_generated", dateCut live.dateRaw) rfl]
  rw [foldDispatch_step ("epsilon", fmtG cfg.epsilon) rfl]
  rw [foldDispatch_step ("prerequisites", prereqBlock cfg.prerequisites) rfl]
  rw [foldDispatch_step ("pre_commands", cmdBlock cfg.pre_commands) rfl]
  rw [foldDispatch_step ("post_commands", cmdBlock cfg.post_commands) rfl]
  rw [foldDispatch_step ("input_file", cfg.input_file) rfl]
  rw [foldDispatch_step ("bond_style", cfg.bond_style) rfl]
  rw [foldDispatch_step ("bond_coeff", cmdBlock cfg.bond_coeff) rfl]
  rw [foldDispatch_step ("natoms", intToString live.natoms) rfl]
  rw [foldDispatch_step ("init_energy", fmtG live.initEnergy) rfl]
  rw [foldDispatch_step ("init_stress", stressBlock fmtE live.initStress) rfl]
  rw [prereqDecode_aliased cfg.prerequisites hprq]
  rw [pushLinesDecode_aliased TestConfig.pre_commands (fun c l => { c with pre_commands := l })
    (fun c l => rfl) (fun c l1 l2 => rfl) cfg.pre_commands hpre]
  rw [pushLinesDecode_aliased TestConfig.post_commands (fun c l => { c with post_commands := l })
    (fun c l => rfl) (fun c l1 l2 => rfl) cfg.post_commands hpost]
  rw [pushLinesDecode_aliased TestConfig.bond_coeff (fun c l => { c with bond_coeff := l })
    (fun c l => rfl) (fun c l1 l2 => rfl) cfg.bond_coeff hcoeff]
  simp only [updBound, setCell_same, setCell_setCell, atoiQ_intToString]
  obtain ⟨aI, hI, hIlen⟩ := initForcesDecode_total G.initF fmtE live.natoms live.tags
    live.initF hfmtE hn htags
    { lammps_version := live.version, date_generated := dateCut live.dateRaw,
      epsilon := atofQ (fmtG cfg.epsilon), prerequisites := cfg.prerequisites,
      pre_commands := cfg.pre_commands, post_commands := cfg.post_commands,
      input_file := cfg.input_file, bond_style := cfg.bond_style,
      bond_coeff := cfg.bond_coeff, natoms := live.natoms,
      init_energy := atofQ (fmtG live.initEnergy), run_energy := defaultConfig.run_energy,
      init_stress := scanStress G.initS (stressBlock fmtE live.initStress).toList,
      run_stress := defaultConfig.run_stress, init_forces := defaultConfig.init_forces,
      run_forces := defaultConfig.run_forces } rfl
  rw [foldDispatch_step ("init_forces", forcesBlock fmtE live.natoms live.tags live.initF)
    (by simp only [dispatch, setCell_same, hI, Option.map_some]; rfl)]
  simp only [setCell_setCell]
  rw [foldDispatch_step ("run_energy", fmtG live.runEnergy) rfl]
  rw [foldDispatch_step ("run_stress", stressBlock fmtE live.runStress) rfl]
  simp only [updBound, setCell_same, setCell_setCell]
  obtain ⟨aR, hR, hRlen⟩ := runForcesDecode_total G.runTag G.runF fmtE live.natoms
    live.runTags live.runF hfmtE hn hrtags
    { lammps_version := live.version, date_generated := dateCut live.dateRaw,
      epsilon := atofQ (fmtG cfg.epsilon), prerequisites := cfg.prerequisites,
      pre_commands := cfg.pre_commands, post_commands := cfg.post_commands,
      input_file := cfg.input_file, bond_style := cfg.bond_style,
      bond_coeff := cfg.bond_coeff, natoms := live.natoms,
      init_energy := atofQ (fmtG live.initEnergy),
      run_energy := atofQ (fmtG live.runEnergy),
      init_stress := scanStress G.initS (stressBlock fmtE live.initStress).toList,
      run_stress := scanStress G.runS (stressBlock fmtE live.runStress).toList,
      init_forces := aI, run_forces := defaultConfig.run_forces } rfl
  rw [foldDispatch_step ("run_forces", forcesBlock fmtE live.natoms live.runTags live.runF)
    (by simp only [dispatch, setCell_same, hR, Option.map_some]; rfl)]
  simp only [setCell_setCell, foldDispatch, Option.map_some, setCell_same]
  refine ⟨{ lammps_version := live.version
            date_generated := dateCut live.dateRaw
            epsilon := atofQ (fmtG cfg.epsilon)
            prerequisites := cfg.prerequisites
            pre_commands := cfg.pre_commands
            post_commands := cfg.post_commands
            input_file := cfg.input_file
            bond_style := cfg.bond_style
            bond_coeff := cfg.bond_coeff
            natoms := live.natoms
            init_energy := atofQ (fmtG live.initEnergy)
            run_energy := atofQ (fmtG live.runEnergy)
            init_stress := scanStress G.initS (stressBlock fmtE live.initStress).toList
            run_stress := scanStress G.runS (stressBlock fmtE live.runStress).toList
            init_forces := aI
            run_forces := aR }, ?_, rfl, rfl, rfl, rfl, rfl, rfl, rfl, rfl,
    rfl, rfl, rfl, rfl, rfl, rfl, hIlen, hRlen⟩
  simp [setCell_same]

/-- Claim C3 (counterexample): the writer does not serialize the
configuration's own `date_generated` — it emits the *live* timestamp
(further mangled by the `find("\n") - 1` truncation) — so re-parsing
the writer's output does not reproduce this scalar field: the
populated config said `"orig"`, the round trip returns
`"Mon Jan 1 202"`. -/
theorem c3_roundtrip_date_counterexample :
    (parseAliased zeroGarbage (writerEvents (generatePairs (fmtConst "0") (fmtConst "0")
        rtConfig rtLive)) defaultConfig).map (fun r => r.2.date_generated) =
      some "Mon Jan 1 202" ∧
    rtConfig.date_generated = "orig" ∧ ("Mon Jan 1 202" : String) ≠ "orig" := by
  refine ⟨?_, rfl, by decide⟩
  simp [parseAliased, writerEvents, pairEvents, generatePairs, parseLoop, consumeEvent,
    YEvent.text, dispatch, updBound, setCell, prereqDecode, pushLinesDecode,
    parsePrereqLine, findIdxFrom, findIdxAux, isWsST, getlines, getlinesAux, joinNl,
    prereqBlock, cmdBlock, dateCut, stressBlock, forcesBlock, forceRow, pad3, intChars,
    natChars, natDigits, digitChar, intToString, atoiQ, atofQ, scanInt, scanUInt, scanSign,
    scanFloat, scanExp, scanStress, scanRow, scanXYZ, floatVal, qpow10, natOfDigits,
    charVal, isDigitC, isScanWs, initForcesDecode, runForcesDecode, writeRows,
    setAtChecked, rtConfig, rtLive, fmtConst, defaultConfig, zeroGarbage, zeroCoord,
    zeroStress, String.toList]

/-- Witness for C3 (amended): the round trip at a concrete populated
configuration and a one-atom live run, with a concrete formatter. -/
theorem c3_roundtrip_amended_witness :
    ∃ c2, parseAliased zeroGarbage
        (writerEvents (generatePairs (fmtConst "0.5") (fmtConst "0.5") rtConfig rtLive1))
        defaultConfig = some (0, c2) ∧
      c2.input_file = rtConfig.input_file ∧
      c2.bond_style = rtConfig.bond_style ∧
      c2.pre_commands = rtConfig.pre_commands ∧
      c2.post_commands = rtConfig.post_commands ∧
      c2.bond_coeff = rtConfig.bond_coeff ∧
      c2.prerequisites = rtConfig.prerequisites ∧
      c2.lammps_version = rtLive1.version ∧
      c2.date_generated = dateCut rtLive1.dateRaw ∧
      c2.natoms = rtLive1.natoms ∧
      c2.epsilon = atofQ (fmtConst "0.5" rtConfig.epsilon) ∧
      c2.init_energy = atofQ (fmtConst "0.5" rtLive1.initEnergy) ∧
      c2.run_energy = atofQ (fmtConst "0.5" rtLive1.runEnergy) ∧
      c2.init_stress = scanStress zeroGarbage.initS
        (stressBlock (fmtConst "0.5") rtLive1.initStress).toList ∧
      c2.run_stress = scanStress zeroGarbage.runS
        (stressBlock (fmtConst "0.5") rtLive1.runStress).toList ∧
      c2.init_forces.length = rtLive1.natoms.toNat + 1 ∧
      c2.run_forces.length = rtLive1.natoms.toNat + 1 :=
  c3_roundtrip_amended zeroGarbage (fmtConst "0.5") (fmtConst "0.5") rtConfig rtLive1
    (fun _ => show noNl "0.5" by decide)
    (by decide) (by decide) (by decide) (by decide)
    (by decide)
    (by intro k hk; refine ⟨?_, ?_⟩ <;> simp [rtLive1])
    (by intro k hk; refine ⟨?_, ?_⟩ <;> simp [rtLive1])

end BondStyle
